import Mathlib

/-!
# Agent reconciler of the LoopStacks operator

A shallow embedding of `operator/pkg/controllers/agent_controller.go`
(`AgentReconciler.Reconcile`, `reconcileAgent`, `handleDeletion`,
`validateAgentRuntime`, `validateAgentSchema`, `getAgentInstanceCount`) together
with the parts of `pkg/apis/v1/types.go` these functions read or write.

The object store and the wall clock are the reconciler's environment.  They are
modelled by a `Client` record of answer functions; every answer may depend on the
store calls the pass has issued so far (the history) and on the argument of the
call.  A pass returns an `Outcome`: the `ctrl.Result`, the error, the in-memory
object at the end of the pass, and the ordered list of store calls it issued.
-/

namespace Loopstacks

/-! ## Time, results and errors -/

/-- A `metav1.Time` reading. -/
abbrev Time := Nat

/-- The constant `time.Second`, in nanoseconds (the unit of `time.Duration`). -/
def Second : Int := 1000000000

/-- The constant `time.Minute`. -/
def Minute : Int := 60 * Second

/-- The struct `ctrl.Result`; `Result{}` is `{}` here. -/
structure Result where
  Requeue : Bool := false
  RequeueAfter : Int := 0
deriving DecidableEq, Repr

/-- What `apierrors` can tell about an error value. -/
inductive ErrorKind where
  | NotFound
  | Conflict
  | Other
deriving DecidableEq, Repr

/-- A Go `error`: its kind and `msg`, the text that `err.Error()` returns. -/
structure Error where
  kind : ErrorKind
  msg : String
deriving DecidableEq, Repr

/-- The call `fmt.Errorf(s)` for an already formatted text `s`. -/
def Errorf (s : String) : Error := { kind := ErrorKind.Other, msg := s }

/-- The predicate `apierrors.IsNotFound`. -/
def IsNotFound (e : Error) : Bool := decide (e.kind = ErrorKind.NotFound)

/-! ## Data model (`types.go`) -/

/-- The struct `runtime.RawExtension`; only `Raw` is read by the controller. -/
structure RawExtension where
  Raw : List UInt8 := []
deriving DecidableEq, Repr

/-- The struct `AgentRuntime`; the `Resources` map is kept as an association list. -/
structure AgentRuntime where
  Image : String := ""
  Language : String := ""
  Resources : List (String × String) := []
deriving DecidableEq, Repr

/-- The struct `AgentSchema`. -/
structure AgentSchema where
  Input : RawExtension := {}
  Output : RawExtension := {}
deriving DecidableEq, Repr

/-- The struct `AgentMetadata`. -/
structure AgentMetadata where
  Name : String := ""
  Description : String := ""
  Version : String := ""
  Author : String := ""
  Tags : List String := []
deriving DecidableEq, Repr

/-- The struct `AgentSpec`. -/
structure AgentSpec where
  Runtime : AgentRuntime := {}
  Capabilities : List String := []
  Schema : AgentSchema := {}
  Metadata : AgentMetadata := {}
deriving DecidableEq, Repr

/-- The struct `AgentStatus`; `Instances` is an `int32`, kept as an `Int` in range. -/
structure AgentStatus where
  Phase : String := ""
  Message : String := ""
  LastUpdated : Time := 0
  Instances : Int := 0
deriving DecidableEq, Repr

/-- The struct `Agent`.  The embedded `metav1.ObjectMeta` is flattened to the four
fields the controller touches: name, namespace, deletion marker and finalizers. -/
structure Agent where
  Name : String := ""
  Namespace : String := ""
  DeletionTimestamp : Option Time := none
  Finalizers : List String := []
  Spec : AgentSpec := {}
  Status : AgentStatus := {}
deriving DecidableEq, Repr

/-- The struct `AgentInstanceSpec`, with the reference fields and the replica count. -/
structure AgentInstanceSpec where
  Agent : String := ""
  Realm : String := ""
  Replicas : Int := 0
deriving DecidableEq, Repr

/-- The struct `AgentInstance`. -/
structure AgentInstance where
  Name : String := ""
  Namespace : String := ""
  Spec : AgentInstanceSpec := {}
deriving DecidableEq, Repr

/-- The request key `types.NamespacedName`. -/
structure NamespacedName where
  Namespace : String := ""
  Name : String := ""
deriving DecidableEq, Repr

/-! ## The environment: object store and clock -/

/-- One call to the object store, as issued by a pass. -/
inductive Event where
  | Get (key : NamespacedName)
  | List (ns : String)
  | Update (obj : Agent)
  | StatusUpdate (obj : Agent)
deriving DecidableEq, Repr

/-- The embedded `client.Client` and the clock.  `Get` answers the first call of a pass;
the other answers depend on the calls issued so far and on the argument.  A write that
succeeds leaves the modelled fields of the in-memory object as they are (only the
resource version, which is not modelled, changes). -/
structure Client where
  Get : NamespacedName → Except Error Agent
  ListInNamespace : List Event → String → Except Error (List AgentInstance)
  Update : List Event → Agent → Option Error
  StatusUpdate : List Event → Agent → Option Error
  Now : List Event → Time

/-- What a pass produces: the returned `(ctrl.Result, error)`, the in-memory object
when the pass ends, and the store calls issued, oldest first. -/
structure Outcome where
  result : Result
  err : Option Error
  agent : Agent
  trace : List Event
deriving DecidableEq, Repr

/-! ## Finalizer helpers of `controllerutil` -/

/-- The helper `controllerutil.ContainsFinalizer`. -/
def ContainsFinalizer (agent : Agent) (finalizer : String) : Bool :=
  agent.Finalizers.any (fun e => decide (e = finalizer))

/-- The helper `controllerutil.AddFinalizer`: appends the token unless it is there. -/
def AddFinalizer (agent : Agent) (finalizer : String) : Agent :=
  if agent.Finalizers.any (fun e => decide (e = finalizer)) then agent
  else { agent with Finalizers := agent.Finalizers ++ [finalizer] }

/-- The helper `controllerutil.RemoveFinalizer`: keeps, in order, every other token. -/
def RemoveFinalizer (agent : Agent) (finalizer : String) : Agent :=
  { agent with Finalizers := agent.Finalizers.filter (fun e => decide (e ≠ finalizer)) }

/-! ## Validation -/

/-- The slice literal `supportedLanguages` of `validateAgentRuntime`. -/
def supportedLanguages : List String := ["typescript", "python", "go"]

/-- The `for ... range supportedLanguages` loop with its `break`: the final value of
`languageSupported`. -/
def languageSupported (language : String) : List String → Bool
  | [] => false
  | lang :: rest => if language = lang then true else languageSupported language rest

/-- The method `validateAgentRuntime`. -/
def validateAgentRuntime (agent : Agent) : Option Error :=
  if agent.Spec.Runtime.Image = "" then
    some (Errorf "runtime image is required")
  else if !languageSupported agent.Spec.Runtime.Language supportedLanguages then
    some (Errorf ("unsupported runtime language: " ++ agent.Spec.Runtime.Language))
  else
    none

/-- The method `validateAgentSchema`. -/
def validateAgentSchema (agent : Agent) : Option Error :=
  if agent.Spec.Schema.Input.Raw.length = 0 then
    some (Errorf "input schema is required")
  else if agent.Spec.Schema.Output.Raw.length = 0 then
    some (Errorf "output schema is required")
  else
    none

/-! ## Dependent count -/

/-- Two's-complement wrap of an integer into the range of `int32`. -/
def wrapInt32 (x : Int) : Int := (x + 2147483648) % 4294967296 - 2147483648

/-- The `for ... range agentInstances.Items` loop of `getAgentInstanceCount`, started
with the running `count`; `count++` is an `int32` increment. -/
def countLoop (name : String) : List AgentInstance → Int → Int
  | [], count => count
  | inst :: rest, count =>
    countLoop name rest (if inst.Spec.Agent = name then wrapInt32 (count + 1) else count)

/-- The method `getAgentInstanceCount`, called after the store calls `h`: the returned
`(int32, error)` pair.  The `List` call it issues is recorded by `listEvent`. -/
def getAgentInstanceCount (c : Client) (h : List Event) (agent : Agent) : Int × Option Error :=
  match c.ListInNamespace h agent.Namespace with
  | Except.error err => (0, some err)
  | Except.ok items => (countLoop agent.Name items 0, none)

/-- The store call issued by `getAgentInstanceCount`. -/
def listEvent (agent : Agent) : Event := Event.List agent.Namespace

/-! ## The reconciler -/

/-- The method `reconcileAgent`, entered after the store calls `h0`. -/
def reconcileAgent (c : Client) (h0 : List Event) (agent0 : Agent) : Outcome :=
  -- Initialize status if needed
  let init : Agent × List Event × Option Error :=
    if agent0.Status.Phase = "" then
      let a : Agent :=
        { agent0 with Status := { agent0.Status with Phase := "Pending", LastUpdated := c.Now h0 } }
      (a, h0 ++ [Event.StatusUpdate a], c.StatusUpdate h0 a)
    else
      (agent0, h0, none)
  match init with
  | (agent1, h1, some err) => { result := {}, err := some err, agent := agent1, trace := h1 }
  | (agent1, h1, none) =>
    -- Validate agent runtime
    match validateAgentRuntime agent1 with
    | some err =>
      let a : Agent :=
        { agent1 with
          Status := { agent1.Status with
                      Phase := "Failed", Message := err.msg, LastUpdated := c.Now h1 } }
      -- the outcome of this status write is logged and dropped
      { result := { RequeueAfter := Minute * 5 }, err := none, agent := a,
        trace := h1 ++ [Event.StatusUpdate a] }
    | none =>
      -- Validate agent schema
      match validateAgentSchema agent1 with
      | some err =>
        let a : Agent :=
          { agent1 with
            Status := { agent1.Status with
                        Phase := "Failed", Message := err.msg, LastUpdated := c.Now h1 } }
        -- the outcome of this status write is logged and dropped
        { result := { RequeueAfter := Minute * 5 }, err := none, agent := a,
          trace := h1 ++ [Event.StatusUpdate a] }
      | none =>
        -- Count associated AgentInstances
        let h2 := h1 ++ [listEvent agent1]
        match getAgentInstanceCount c h1 agent1 with
        | (_, some err) => { result := {}, err := some err, agent := agent1, trace := h2 }
        | (instanceCount, none) =>
          -- Update status to Ready
          let a : Agent :=
            { agent1 with
              Status := { agent1.Status with
                          Phase := "Ready", Message := "Agent is ready for deployment",
                          Instances := instanceCount, LastUpdated := c.Now h2 } }
          match c.StatusUpdate h2 a with
          | some err =>
            { result := {}, err := some err, agent := a, trace := h2 ++ [Event.StatusUpdate a] }
          | none =>
            { result := { RequeueAfter := Minute * 10 }, err := none, agent := a,
              trace := h2 ++ [Event.StatusUpdate a] }

/-- The method `handleDeletion`, entered after the store calls `h0`. -/
def handleDeletion (c : Client) (h0 : List Event) (agent : Agent) (finalizerName : String) :
    Outcome :=
  -- Check if there are any AgentInstances referencing this Agent
  let h1 := h0 ++ [listEvent agent]
  match getAgentInstanceCount c h0 agent with
  | (_, some err) => { result := {}, err := some err, agent := agent, trace := h1 }
  | (instanceCount, none) =>
    if instanceCount > 0 then
      let a : Agent :=
        { agent with
          Status := { agent.Status with
                      Phase := "Terminating",
                      Message := "Waiting for AgentInstances to be deleted",
                      LastUpdated := c.Now h1 } }
      -- the outcome of this status write is logged and dropped
      { result := { RequeueAfter := Second * 30 }, err := none, agent := a,
        trace := h1 ++ [Event.StatusUpdate a] }
    else
      -- Remove finalizer
      let a := RemoveFinalizer agent finalizerName
      match c.Update h1 a with
      | some err => { result := {}, err := some err, agent := a, trace := h1 ++ [Event.Update a] }
      | none => { result := {}, err := none, agent := a, trace := h1 ++ [Event.Update a] }

/-- The finalizer token of the Agent controller. -/
def finalizerName : String := "loopstacks.io/agent-finalizer"

/-- The method `AgentReconciler.Reconcile`. -/
def Reconcile (c : Client) (req : NamespacedName) : Outcome :=
  let h0 := [Event.Get req]
  -- Fetch the Agent instance
  match c.Get req with
  | Except.error err =>
    if IsNotFound err then { result := {}, err := none, agent := {}, trace := h0 }
    else { result := {}, err := some err, agent := {}, trace := h0 }
  | Except.ok agent =>
    -- Add finalizer if not present
    if agent.DeletionTimestamp = none ∧ !ContainsFinalizer agent finalizerName then
      let a := AddFinalizer agent finalizerName
      { result := {}, err := c.Update h0 a, agent := a, trace := h0 ++ [Event.Update a] }
    -- Handle deletion
    else if agent.DeletionTimestamp ≠ none then
      handleDeletion c h0 agent finalizerName
    -- Reconcile the agent
    else
      reconcileAgent c h0 agent

/-! ## The validation rules as the specification words them, and auxiliary notions -/

/-- The four ordered rules of the specification for an Agent spec: each entry is
whether the rule passes, and the reason given when it fails.  (1) the runtime image is
non-empty, (2) the runtime language is in the supported set, (3) the input schema is
non-empty, (4) the output schema is non-empty. -/
def validationRules (spec : AgentSpec) : List (Bool × String) :=
  [ (decide (spec.Runtime.Image ≠ ""), "runtime image is required"),
    (decide (spec.Runtime.Language ∈ ["typescript", "python", "go"]),
      "unsupported runtime language: " ++ spec.Runtime.Language),
    (decide (spec.Schema.Input.Raw ≠ []), "input schema is required"),
    (decide (spec.Schema.Output.Raw ≠ []), "output schema is required") ]

/-- The specification's outcome of validation: the reason of the first rule, in order,
that fails, or `none` when every rule passes. -/
def firstFailure (spec : AgentSpec) : Option String :=
  ((validationRules spec).find? (fun rule => !rule.1)).map (fun rule => rule.2)

/-- The reason that the two validation methods of the controller, run in the order of
`reconcileAgent`, report for an agent: runtime first, schema second. -/
def validationReason (agent : Agent) : Option String :=
  match validateAgentRuntime agent with
  | some err => some err.msg
  | none =>
    match validateAgentSchema agent with
    | some err => some err.msg
    | none => none

/-- The number of instances of a list that reference the agent called `name`. -/
def matching (name : String) (items : List AgentInstance) : Nat :=
  items.countP (fun inst => decide (inst.Spec.Agent = name))

/-- The object that `reconcileAgent` writes first when the phase is empty. -/
def pendingAgent (c : Client) (h : List Event) (agent : Agent) : Agent :=
  { agent with Status := { agent.Status with Phase := "Pending", LastUpdated := c.Now h } }

/-- The instance `inst` with its realm replaced. -/
def withRealm (realm : String) (inst : AgentInstance) : AgentInstance :=
  { inst with Spec := { inst.Spec with Realm := realm } }

/-! ## The objects a pass writes -/

/-- The object written by the validation-failure branch of `reconcileAgent`. -/
def failedAgent (c : Client) (h : List Event) (agent : Agent) (reason : String) : Agent :=
  { agent with
    Status := { agent.Status with Phase := "Failed", Message := reason, LastUpdated := c.Now h } }

/-- The object written by the readiness branch of `reconcileAgent`. -/
def readyAgent (c : Client) (h : List Event) (agent : Agent) (instanceCount : Int) : Agent :=
  { agent with
    Status := { agent.Status with
                Phase := "Ready", Message := "Agent is ready for deployment",
                Instances := instanceCount, LastUpdated := c.Now h } }

/-- The object written by the blocked branch of `handleDeletion`. -/
def terminatingAgent (c : Client) (h : List Event) (agent : Agent) : Agent :=
  { agent with
    Status := { agent.Status with
                Phase := "Terminating",
                Message := "Waiting for AgentInstances to be deleted",
                LastUpdated := c.Now h } }

/-- How `reconcileAgent`, entered after `h` with `agent`, gets to validation: either the
phase is already set, and it validates `agent` after `h`; or the phase is empty, the
Pending write succeeds, and it validates the Pending object after that write. -/
def reachesValidation (c : Client) (h : List Event) (agent : Agent)
    (h1 : List Event) (agent1 : Agent) : Prop :=
  (agent.Status.Phase ≠ "" ∧ agent1 = agent ∧ h1 = h) ∨
  (agent.Status.Phase = "" ∧ agent1 = pendingAgent c h agent ∧
    h1 = h ++ [Event.StatusUpdate (pendingAgent c h agent)] ∧
    c.StatusUpdate h (pendingAgent c h agent) = none)

/-! ## Reading a trace -/

/-- The writes of a trace that the store rejected, each with the error it returned; the
trace is replayed from the history `h`, so every call is asked of the store with the
calls that preceded it. -/
def failedWrites (c : Client) : List Event → List Event → List (Event × Error)
  | _, [] => []
  | h, Event.Get key :: rest => failedWrites c (h ++ [Event.Get key]) rest
  | h, Event.List ns :: rest => failedWrites c (h ++ [Event.List ns]) rest
  | h, Event.Update obj :: rest =>
    ((c.Update h obj).map (fun e => (Event.Update obj, e))).toList
      ++ failedWrites c (h ++ [Event.Update obj]) rest
  | h, Event.StatusUpdate obj :: rest =>
    ((c.StatusUpdate h obj).map (fun e => (Event.StatusUpdate obj, e))).toList
      ++ failedWrites c (h ++ [Event.StatusUpdate obj]) rest

/-- Whether a store call is a metadata write (`r.Update`). -/
def isMetadataWrite : Event → Bool
  | Event.Update _ => true
  | _ => false

/-- Whether a store call is a status write (`r.Status().Update`). -/
def isStatusWrite : Event → Bool
  | Event.StatusUpdate _ => true
  | _ => false

/-- The well-formedness of a status: the phases "Failed" and "Terminating" come with a
non-empty message. -/
def wellFormed (s : AgentStatus) : Prop :=
  (s.Phase = "Failed" ∨ s.Phase = "Terminating") → s.Message ≠ ""

instance wellFormedDecidable (s : AgentStatus) : Decidable (wellFormed s) := by
  unfold wellFormed
  infer_instance

/-- What a pass returns for the writes that the store rejected: the error of a rejected
metadata write, or of a rejected status write with phase "Pending" or "Ready", is the
error the pass returns; a rejected status write with phase "Failed" or "Terminating"
leaves the returned error nil and the requeue interval at 5 minutes or 30 seconds; and
no status write has another phase. -/
def surfaced (c : Client) (out : Outcome) : Prop :=
  (∀ obj e, (Event.Update obj, e) ∈ failedWrites c [] out.trace → out.err = some e) ∧
  (∀ obj e, (Event.StatusUpdate obj, e) ∈ failedWrites c [] out.trace →
    obj.Status.Phase = "Pending" ∨ obj.Status.Phase = "Ready" → out.err = some e) ∧
  (∀ obj e, (Event.StatusUpdate obj, e) ∈ failedWrites c [] out.trace →
    obj.Status.Phase = "Failed" →
    out.err = none ∧ out.result = { RequeueAfter := Minute * 5 }) ∧
  (∀ obj e, (Event.StatusUpdate obj, e) ∈ failedWrites c [] out.trace →
    obj.Status.Phase = "Terminating" →
    out.err = none ∧ out.result = { RequeueAfter := Second * 30 }) ∧
  (∀ obj e, (Event.StatusUpdate obj, e) ∈ failedWrites c [] out.trace →
    obj.Status.Phase = "Pending" ∨ obj.Status.Phase = "Ready" ∨
    obj.Status.Phase = "Failed" ∨ obj.Status.Phase = "Terminating")

/-- The writes of a trace, metadata and status, in the order in which they were issued. -/
def writes (trace : List Event) : List Event :=
  trace.filter (fun ev => isMetadataWrite ev || isStatusWrite ev)

/-- The writes of a pass whose store calls all succeed.  A pass in the normal branch that
finds the phase empty issues two status writes, the first with phase "Pending", the
second with phase "Failed" or "Ready"; every other pass issues one write, a metadata
write or a status write.  In numbers: two writes, respectively one, and never a metadata
write together with a status write. -/
def writesOnce (agent : Agent) (out : Outcome) : Prop :=
  ((agent.DeletionTimestamp = none ∧ finalizerName ∈ agent.Finalizers ∧
      agent.Status.Phase = "") →
    ∃ a b, writes out.trace = [Event.StatusUpdate a, Event.StatusUpdate b] ∧
      a.Status.Phase = "Pending" ∧ (b.Status.Phase = "Failed" ∨ b.Status.Phase = "Ready")) ∧
  (¬ (agent.DeletionTimestamp = none ∧ finalizerName ∈ agent.Finalizers ∧
      agent.Status.Phase = "") →
    (∃ obj, writes out.trace = [Event.Update obj]) ∨
    (∃ obj, writes out.trace = [Event.StatusUpdate obj])) ∧
  out.trace.countP isMetadataWrite + out.trace.countP isStatusWrite
    = (if agent.DeletionTimestamp = none ∧ finalizerName ∈ agent.Finalizers ∧
          agent.Status.Phase = "" then 2 else 1) ∧
  (out.trace.countP isMetadataWrite = 0 ∨ out.trace.countP isStatusWrite = 0)

/-- What a pass on the fetched `agent` guarantees about statuses: every status it
writes is well-formed; the status it leaves on the object is the fetched one or one it
wrote; a write with phase "Ready" happens only for a spec that passes every rule, and a
write with phase "Failed" only for a spec that violates one. -/
def statusInvariant (agent : Agent) (out : Outcome) : Prop :=
  (∀ obj, Event.StatusUpdate obj ∈ out.trace → wellFormed obj.Status) ∧
  (out.agent.Status = agent.Status ∨ Event.StatusUpdate out.agent ∈ out.trace) ∧
  (∀ obj, Event.StatusUpdate obj ∈ out.trace → obj.Status.Phase = "Ready" →
    firstFailure agent.Spec = none) ∧
  (∀ obj, Event.StatusUpdate obj ∈ out.trace → obj.Status.Phase = "Failed" →
    firstFailure agent.Spec ≠ none)

/-! ## Sample objects and stores used to exercise the theorems -/

/-- An agent awaiting deletion that still carries the controller's finalizer. -/
def doomedAgent : Agent :=
  { Name := "summarizer", Namespace := "prod", DeletionTimestamp := some 7,
    Finalizers := [finalizerName],
    Spec := { Runtime := { Image := "img:1", Language := "go" } } }

/-- An instance that references `doomedAgent`. -/
def doomedInstance : AgentInstance :=
  { Name := "summarizer-0", Namespace := "prod", Spec := { Agent := "summarizer", Realm := "r1" } }

/-- A store that holds one agent, lists the given instances and accepts every write. -/
def storeWith (agent : Agent) (items : List AgentInstance) : Client :=
  { Get := fun _ => Except.ok agent,
    ListInNamespace := fun _ _ => Except.ok items,
    Update := fun _ _ => none,
    StatusUpdate := fun _ _ => none,
    Now := fun h => 100 + h.length }

/-- The key under which `doomedAgent` is stored. -/
def doomedKey : NamespacedName := { Namespace := "prod", Name := "summarizer" }

/-- A namespace crowded with 2^31 instances that all reference `doomedAgent`. -/
def crowd : List AgentInstance := List.replicate 2147483648 doomedInstance

/-- A freshly created agent: no deletion marker, a foreign finalizer only, empty status. -/
def freshAgent : Agent :=
  { Name := "summarizer", Namespace := "prod",
    Finalizers := ["example.com/other"],
    Spec := { Runtime := { Image := "img:1", Language := "go" },
              Schema := { Input := { Raw := [123, 125] }, Output := { Raw := [123, 125] } } } }

/-- The agent `doomedAgent` with a second, foreign finalizer in front. -/
def guardedAgent : Agent := { doomedAgent with Finalizers := ["example.com/other", finalizerName] }

/-- An instance in the same namespace that references another agent. -/
def strangerInstance : AgentInstance :=
  { Name := "translator-0", Namespace := "prod", Spec := { Agent := "translator", Realm := "r1" } }

/-- An agent seen before whose spec breaks every rule: no image, no language, no schemas. -/
def brokenAgent : Agent :=
  { Name := "summarizer", Namespace := "prod", Finalizers := [finalizerName],
    Status := { Phase := "Ready", Message := "Agent is ready for deployment", Instances := 2 } }

/-- The same broken spec on an agent that was never seen: the status is empty. -/
def unseenBrokenAgent : Agent := { brokenAgent with Status := {} }

/-- The agent `freshAgent` with the language written "Go". -/
def shoutingAgent : Agent :=
  { Name := "summarizer", Namespace := "prod",
    Spec := { Runtime := { Image := "img:1", Language := "Go" },
              Schema := { Input := { Raw := [123, 125] }, Output := { Raw := [123, 125] } } } }

/-- An agent that shares with `freshAgent` only the four validated fields. -/
def unrelatedAgent : Agent :=
  { Name := "x", Namespace := "dev", DeletionTimestamp := some 3,
    Status := { Phase := "Failed", Message := "old" },
    Spec := { Runtime := { Image := "img:1", Language := "go", Resources := [("cpu", "1")] },
              Capabilities := ["chat"],
              Schema := { Input := { Raw := [123, 125] }, Output := { Raw := [123, 125] } },
              Metadata := { Author := "someone" } } }

/-- A store like `storeWith` that rejects every write with a conflict. -/
def conflictingStore (agent : Agent) (items : List AgentInstance) : Client :=
  { storeWith agent items with
    Update := fun _ _ => some { kind := ErrorKind.Conflict, msg := "object has been modified" },
    StatusUpdate := fun _ _ =>
      some { kind := ErrorKind.Conflict, msg := "object has been modified" } }

/-- The agent `freshAgent` once the finalizer has been attached. -/
def liveAgent : Agent := { freshAgent with Finalizers := ["example.com/other", finalizerName] }

/-- A second instance that references the agent "summarizer", in another realm. -/
def secondInstance : AgentInstance :=
  { Name := "summarizer-1", Namespace := "prod", Spec := { Agent := "summarizer", Realm := "r2" } }

/-- A store from which every object has vanished and that accepts no call. -/
def emptyStore : Client :=
  { Get := fun _ => Except.error { kind := ErrorKind.NotFound, msg := "agents not found" },
    ListInNamespace := fun _ _ => Except.error { kind := ErrorKind.Other, msg := "unreachable" },
    Update := fun _ _ => some { kind := ErrorKind.Other, msg := "unreachable" },
    StatusUpdate := fun _ _ => some { kind := ErrorKind.Other, msg := "unreachable" },
    Now := fun _ => 0 }

/-- A third instance that references the agent "summarizer". -/
def thirdInstance : AgentInstance :=
  { Name := "summarizer-2", Namespace := "prod", Spec := { Agent := "summarizer", Realm := "r1" } }

/-- An agent without the controller's finalizer whose stored status has phase "Failed"
and an empty message. -/
def staleAgent : Agent :=
  { Name := "summarizer", Namespace := "prod",
    Spec := { Runtime := { Image := "img:1", Language := "go" },
              Schema := { Input := { Raw := [123, 125] }, Output := { Raw := [123, 125] } } },
    Status := { Phase := "Failed", Message := "" } }

/-- An agent awaiting deletion whose stored status has phase "Terminating" and an empty
message. -/
def staleDoomedAgent : Agent :=
  { Name := "summarizer", Namespace := "prod", DeletionTimestamp := some 7,
    Finalizers := [finalizerName],
    Status := { Phase := "Terminating", Message := "" } }

/-! # Theorems -/

/-! ## Facts about the dependent count -/

theorem wrapInt32_succ_wrap (k : Int) : wrapInt32 (wrapInt32 k + 1) = wrapInt32 (k + 1) := by
  unfold wrapInt32
  omega

theorem wrapInt32_of_lt (k : Int) (h0 : 0 ≤ k) (h1 : k < 2147483648) : wrapInt32 k = k := by
  unfold wrapInt32
  omega

theorem countLoop_wrap (name : String) (items : List AgentInstance) (k : Int) :
    countLoop name items (wrapInt32 k) = wrapInt32 (k + (matching name items : Nat)) := by
  induction items generalizing k with
  | nil => simp [countLoop, matching]
  | cons inst rest ih =>
    by_cases hm : inst.Spec.Agent = name
    · have hc : matching name (inst :: rest) = matching name rest + 1 := by
        simp [matching, List.countP_cons, hm]
      simp only [countLoop, hm, if_true, wrapInt32_succ_wrap, ih, hc]
      congr 1
      push_cast
      ring
    · have hc : matching name (inst :: rest) = matching name rest := by
        simp [matching, List.countP_cons, hm]
      simp only [countLoop, hm, if_false, ih, hc]

theorem countLoop_zero (name : String) (items : List AgentInstance) :
    countLoop name items 0 = wrapInt32 (matching name items : Nat) := by
  have h := countLoop_wrap name items 0
  have h0 : wrapInt32 0 = 0 := by decide
  rw [h0] at h
  simpa using h

theorem matching_le_length (name : String) (items : List AgentInstance) :
    matching name items ≤ items.length := by
  unfold matching
  exact List.countP_le_length _

theorem matching_pos_iff (name : String) (items : List AgentInstance) :
    0 < matching name items ↔ ∃ inst ∈ items, inst.Spec.Agent = name := by
  unfold matching
  simp [List.countP_pos_iff]

theorem matching_eq_zero_iff (name : String) (items : List AgentInstance) :
    matching name items = 0 ↔ ∀ inst ∈ items, inst.Spec.Agent ≠ name := by
  unfold matching
  simp [List.countP_eq_zero]

/-! ## Shared facts about the three branches of a pass -/

theorem getAgentInstanceCount_ok (c : Client) (h : List Event) (agent : Agent)
    (items : List AgentInstance) (hl : c.ListInNamespace h agent.Namespace = Except.ok items) :
    getAgentInstanceCount c h agent = (wrapInt32 (matching agent.Name items : Nat), none) := by
  simp [getAgentInstanceCount, hl, countLoop_zero]

theorem Reconcile_deleting (c : Client) (req : NamespacedName) (agent : Agent)
    (hg : c.Get req = Except.ok agent) (hd : agent.DeletionTimestamp ≠ none) :
    Reconcile c req = handleDeletion c [Event.Get req] agent finalizerName := by
  simp [Reconcile, hg, hd]

theorem Reconcile_normal (c : Client) (req : NamespacedName) (agent : Agent)
    (hg : c.Get req = Except.ok agent) (hd : agent.DeletionTimestamp = none)
    (hf : finalizerName ∈ agent.Finalizers) :
    Reconcile c req = reconcileAgent c [Event.Get req] agent := by
  simp [Reconcile, hg, hd, ContainsFinalizer, hf]

/-! ## Deletion gating -/

theorem matching_crowd : matching doomedAgent.Name crowd = 2147483648 := by
  unfold matching crowd
  rw [List.countP_replicate]
  decide

/-- C1 as stated fails: with 2^31 instances referencing the agent, the `int32` counter
of `getAgentInstanceCount` wraps to a negative value, the test `instanceCount > 0` is
false, and the pass removes the finalizer with a metadata Update although the listing
succeeded and contains an instance that references the agent. -/
theorem deletion_gating_overflow_counterexample :
    doomedAgent.DeletionTimestamp ≠ none ∧
    (storeWith doomedAgent crowd).ListInNamespace [Event.Get doomedKey] doomedAgent.Namespace
      = Except.ok crowd ∧
    (∃ inst ∈ crowd, inst.Spec.Agent = doomedAgent.Name) ∧
    finalizerName ∈ doomedAgent.Finalizers ∧
    Reconcile (storeWith doomedAgent crowd) doomedKey
      = { result := {}, err := none, agent := { doomedAgent with Finalizers := [] },
          trace := [Event.Get doomedKey, Event.List "prod",
                    Event.Update { doomedAgent with Finalizers := [] }] } := by
  have hc : getAgentInstanceCount (storeWith doomedAgent crowd) [Event.Get doomedKey] doomedAgent
      = (-2147483648, none) := by
    rw [getAgentInstanceCount_ok _ _ _ crowd rfl, matching_crowd]
    decide
  have hmem : doomedInstance ∈ crowd := List.mem_replicate.2 ⟨by decide, rfl⟩
  refine ⟨by decide, rfl, ⟨doomedInstance, hmem, rfl⟩, by decide, ?_⟩
  rw [Reconcile_deleting _ _ doomedAgent rfl (by decide)]
  simp only [handleDeletion, hc]
  decide

/-- C1 (amended): when the deletion marker is set and the listing succeeds with at least
one and fewer than 2^31 instances that reference the agent, the pass keeps the finalizers
as they are, issues no metadata Update (its store calls are the Get, the List and one
status write), sets the phase to "Terminating", and returns a nil error with
RequeueAfter = 30 seconds, which is less than the 10 minutes of the steady state. -/
theorem deletion_gating (c : Client) (req : NamespacedName) (agent : Agent)
    (items : List AgentInstance)
    (hg : c.Get req = Except.ok agent)
    (hd : agent.DeletionTimestamp ≠ none)
    (hl : c.ListInNamespace [Event.Get req] agent.Namespace = Except.ok items)
    (hex : ∃ inst ∈ items, inst.Spec.Agent = agent.Name)
    (hlt : matching agent.Name items < 2147483648) :
    (Reconcile c req).agent.Finalizers = agent.Finalizers ∧
    (∀ obj, Event.Update obj ∉ (Reconcile c req).trace) ∧
    (Reconcile c req).trace
      = [Event.Get req, Event.List agent.Namespace, Event.StatusUpdate (Reconcile c req).agent] ∧
    (Reconcile c req).agent.Status.Phase = "Terminating" ∧
    (Reconcile c req).err = none ∧
    (Reconcile c req).result = { RequeueAfter := Second * 30 } ∧
    Second * 30 < Minute * 10 := by
  have hpos : 0 < matching agent.Name items := (matching_pos_iff _ _).2 hex
  have hw : wrapInt32 (matching agent.Name items : Nat) = (matching agent.Name items : Nat) :=
    wrapInt32_of_lt _ (by omega) (by omega)
  have hc := getAgentInstanceCount_ok c [Event.Get req] agent items hl
  rw [hw] at hc
  have hgt : ((matching agent.Name items : Nat) : Int) > 0 := by omega
  rw [Reconcile_deleting c req agent hg hd]
  simp only [handleDeletion, hc, hgt, if_true]
  simp [listEvent, Second, Minute]

theorem deletion_gating_witness :
    (Reconcile (storeWith doomedAgent [doomedInstance]) doomedKey).agent.Status.Phase
      = "Terminating" :=
  (deletion_gating (storeWith doomedAgent [doomedInstance]) doomedKey doomedAgent
    [doomedInstance] rfl (by decide) rfl ⟨doomedInstance, by simp, rfl⟩ (by decide)).2.2.2.1

/-! ## Finalizer attach -/

/-- C2: a fetched Agent without deletion marker and without the controller's finalizer
gets exactly that token appended to its finalizers; name, namespace, deletion marker,
Spec and Status stay as fetched; the store calls of the pass are the Get and one
metadata Update of the new object (no List, no status write); the pass returns the
empty Result together with whatever that Update returned. -/
theorem finalizer_precedence (c : Client) (req : NamespacedName) (agent : Agent)
    (hg : c.Get req = Except.ok agent)
    (hd : agent.DeletionTimestamp = none)
    (hf : finalizerName ∉ agent.Finalizers) :
    (Reconcile c req).agent
      = { agent with Finalizers := agent.Finalizers ++ ["loopstacks.io/agent-finalizer"] } ∧
    (Reconcile c req).agent.Spec = agent.Spec ∧
    (Reconcile c req).agent.Status = agent.Status ∧
    (Reconcile c req).trace = [Event.Get req, Event.Update (Reconcile c req).agent] ∧
    (∀ obj, Event.StatusUpdate obj ∉ (Reconcile c req).trace) ∧
    (∀ ns, Event.List ns ∉ (Reconcile c req).trace) ∧
    (Reconcile c req).result = {} ∧
    (Reconcile c req).result.Requeue = false ∧
    (Reconcile c req).result.RequeueAfter = 0 ∧
    (Reconcile c req).err = c.Update [Event.Get req] (Reconcile c req).agent := by
  have hr : Reconcile c req
      = { result := {}, err := c.Update [Event.Get req] (AddFinalizer agent finalizerName),
          agent := AddFinalizer agent finalizerName,
          trace := [Event.Get req] ++ [Event.Update (AddFinalizer agent finalizerName)] } := by
    simp [Reconcile, hg, hd, ContainsFinalizer, hf]
  have ha : AddFinalizer agent finalizerName
      = { agent with Finalizers := agent.Finalizers ++ ["loopstacks.io/agent-finalizer"] } := by
    simp [AddFinalizer, hf]
    rfl
  rw [hr, ha]
  simp

theorem finalizer_precedence_witness :
    (Reconcile (storeWith freshAgent []) doomedKey).agent.Finalizers
      = ["example.com/other", "loopstacks.io/agent-finalizer"] :=
  congrArg Agent.Finalizers
    (finalizer_precedence (storeWith freshAgent []) doomedKey freshAgent rfl rfl (by decide)).1

/-! ## Deletion completion -/

/-- C3: when the deletion marker is set and the listing succeeds with no instance that
references the agent, the pass removes every occurrence of the controller's finalizer and
keeps all other finalizers in their order, changes nothing else on the object (Status and
Spec included), issues after the Get and the List exactly one metadata Update and no
status write, and, when that Update succeeds, returns the empty Result with a nil error. -/
theorem deletion_completion (c : Client) (req : NamespacedName) (agent : Agent)
    (items : List AgentInstance)
    (hg : c.Get req = Except.ok agent)
    (hd : agent.DeletionTimestamp ≠ none)
    (hl : c.ListInNamespace [Event.Get req] agent.Namespace = Except.ok items)
    (hno : ∀ inst ∈ items, inst.Spec.Agent ≠ agent.Name) :
    (Reconcile c req).agent
      = { agent with
          Finalizers := agent.Finalizers.filter
            (fun e => decide (e ≠ "loopstacks.io/agent-finalizer")) } ∧
    "loopstacks.io/agent-finalizer" ∉ (Reconcile c req).agent.Finalizers ∧
    (∀ f, f ≠ "loopstacks.io/agent-finalizer" →
      (Reconcile c req).agent.Finalizers.count f = agent.Finalizers.count f) ∧
    (Reconcile c req).agent.Status = agent.Status ∧
    (Reconcile c req).trace
      = [Event.Get req, Event.List agent.Namespace, Event.Update (Reconcile c req).agent] ∧
    (∀ obj, Event.StatusUpdate obj ∉ (Reconcile c req).trace) ∧
    (c.Update [Event.Get req, Event.List agent.Namespace] (Reconcile c req).agent = none →
      (Reconcile c req).result = {} ∧ (Reconcile c req).err = none) := by
  have hz : matching agent.Name items = 0 := (matching_eq_zero_iff _ _).2 hno
  have hc := getAgentInstanceCount_ok c [Event.Get req] agent items hl
  rw [hz] at hc
  have hw : wrapInt32 ((0 : Nat) : Int) = 0 := by decide
  rw [hw] at hc
  have hr : (Reconcile c req).agent = RemoveFinalizer agent finalizerName ∧
      (Reconcile c req).trace = [Event.Get req, Event.List agent.Namespace,
        Event.Update (RemoveFinalizer agent finalizerName)] ∧
      (c.Update [Event.Get req, Event.List agent.Namespace] (RemoveFinalizer agent finalizerName)
          = none → (Reconcile c req).result = {} ∧ (Reconcile c req).err = none) := by
    rw [Reconcile_deleting c req agent hg hd]
    simp only [handleDeletion, hc]
    cases hu : c.Update ([Event.Get req] ++ [listEvent agent]) (RemoveFinalizer agent finalizerName)
      <;> simp_all [listEvent]
  obtain ⟨h1, h2, h3⟩ := hr
  have ha : RemoveFinalizer agent finalizerName
      = { agent with
          Finalizers := agent.Finalizers.filter
            (fun e => decide (e ≠ "loopstacks.io/agent-finalizer")) } := rfl
  rw [h1, h2]
  refine ⟨ha, ?_, ?_, rfl, by simp, by simp, ?_⟩
  · simp [RemoveFinalizer, finalizerName, List.mem_filter]
  · intro f hf
    simp only [RemoveFinalizer, finalizerName]
    rw [List.count_filter]
    simpa using hf
  · exact h3

theorem deletion_completion_witness :
    (Reconcile (storeWith guardedAgent [strangerInstance]) doomedKey).agent.Finalizers
      = ["example.com/other"] :=
  congrArg Agent.Finalizers
    (deletion_completion (storeWith guardedAgent [strangerInstance]) doomedKey guardedAgent
      [strangerInstance] rfl (by decide) rfl (by decide)).1

/-! ## Validation -/

theorem languageSupported_iff (language : String) :
    languageSupported language supportedLanguages = true
      ↔ language = "typescript" ∨ language = "python" ∨ language = "go" := by
  simp [languageSupported, supportedLanguages]

theorem validationReason_eq_firstFailure (agent : Agent) :
    validationReason agent = firstFailure agent.Spec := by
  by_cases hi : agent.Spec.Runtime.Image = ""
  · simp [validationReason, validateAgentRuntime, firstFailure, validationRules, hi, Errorf]
  · by_cases hlang : languageSupported agent.Spec.Runtime.Language supportedLanguages = true
    · have hl2 := (languageSupported_iff _).1 hlang
      by_cases hin : agent.Spec.Schema.Input.Raw = []
      · simp [validationReason, validateAgentRuntime, validateAgentSchema, firstFailure,
          validationRules, hi, hlang, hl2, hin, Errorf]
      · by_cases hout : agent.Spec.Schema.Output.Raw = []
        · simp [validationReason, validateAgentRuntime, validateAgentSchema, firstFailure,
            validationRules, hi, hlang, hl2, hin, hout, Errorf]
        · simp [validationReason, validateAgentRuntime, validateAgentSchema, firstFailure,
            validationRules, hi, hlang, hl2, hin, hout, Errorf]
    · have hl2 : ¬ (agent.Spec.Runtime.Language = "typescript" ∨
          agent.Spec.Runtime.Language = "python" ∨ agent.Spec.Runtime.Language = "go") :=
        fun h => hlang ((languageSupported_iff _).2 h)
      simp [validationReason, validateAgentRuntime, firstFailure, validationRules, hi, hlang,
        hl2, Errorf]

theorem validationReason_congr (a b : Agent) (h : a.Spec = b.Spec) :
    validationReason a = validationReason b := by
  simp [validationReason, validateAgentRuntime, validateAgentSchema, h]

/-- The outcome of `reconcileAgent` for an agent whose phase is already set and whose
spec fails validation with `reason`. -/
theorem reconcileAgent_invalid_seen (c : Client) (h : List Event) (agent : Agent)
    (reason : String) (hp : agent.Status.Phase ≠ "") (hv : validationReason agent = some reason) :
    reconcileAgent c h agent
      = { result := { RequeueAfter := Minute * 5 }, err := none,
          agent := { agent with
                     Status := { agent.Status with
                                 Phase := "Failed", Message := reason, LastUpdated := c.Now h } },
          trace := h ++ [Event.StatusUpdate
                    { agent with
                      Status := { agent.Status with
                                  Phase := "Failed", Message := reason,
                                  LastUpdated := c.Now h } }] } := by
  unfold validationReason at hv
  unfold reconcileAgent
  simp only [hp, if_false]
  cases hr : validateAgentRuntime agent with
  | some e =>
    simp only [hr] at hv
    simp at hv
    simp [hv]
  | none =>
    simp only [hr] at hv
    cases hs : validateAgentSchema agent with
    | some e =>
      simp only [hs] at hv
      simp at hv
      simp [hv]
    | none =>
      simp [hs] at hv

/-- When the phase is empty and the Pending write succeeds, the rest of the pass is the
pass of the Pending object, entered after that write. -/
theorem reconcileAgent_first (c : Client) (h : List Event) (agent : Agent)
    (hp : agent.Status.Phase = "")
    (hw : c.StatusUpdate h (pendingAgent c h agent) = none) :
    reconcileAgent c h agent
      = reconcileAgent c (h ++ [Event.StatusUpdate (pendingAgent c h agent)])
          (pendingAgent c h agent) := by
  have hq : (pendingAgent c h agent).Status.Phase ≠ "" := by simp [pendingAgent]
  conv_lhs => unfold reconcileAgent
  conv_rhs => unfold reconcileAgent
  simp only [hp, hq, if_true, if_false]
  unfold pendingAgent at hw
  simp only [hw]
  rfl

/-- When the phase is empty and the Pending write fails, the pass stops there. -/
theorem reconcileAgent_first_fails (c : Client) (h : List Event) (agent : Agent) (e : Error)
    (hp : agent.Status.Phase = "")
    (hw : c.StatusUpdate h (pendingAgent c h agent) = some e) :
    reconcileAgent c h agent
      = { result := {}, err := some e, agent := pendingAgent c h agent,
          trace := h ++ [Event.StatusUpdate (pendingAgent c h agent)] } := by
  unfold reconcileAgent
  unfold pendingAgent at hw
  simp only [hp, if_true, hw]
  rfl

/-- The outcome of `reconcileAgent` for a spec that fails validation, whenever the pass
gets past the Pending write (the phase is already set, or that write succeeds). -/
theorem reconcileAgent_invalid (c : Client) (h : List Event) (agent : Agent) (reason : String)
    (hw : agent.Status.Phase = "" → c.StatusUpdate h (pendingAgent c h agent) = none)
    (hv : firstFailure agent.Spec = some reason) :
    (reconcileAgent c h agent).result = { RequeueAfter := Minute * 5 } ∧
    (reconcileAgent c h agent).err = none ∧
    (reconcileAgent c h agent).agent.Status.Phase = "Failed" ∧
    (reconcileAgent c h agent).agent.Status.Message = reason ∧
    (reconcileAgent c h agent).agent.Status.Instances = agent.Status.Instances ∧
    (reconcileAgent c h agent).trace.getLast?
      = some (Event.StatusUpdate (reconcileAgent c h agent).agent) := by
  rw [← validationReason_eq_firstFailure] at hv
  by_cases hp : agent.Status.Phase = ""
  · have hv2 : validationReason (pendingAgent c h agent) = some reason := by
      rw [validationReason_congr (pendingAgent c h agent) agent rfl]
      exact hv
    rw [reconcileAgent_first c h agent hp (hw hp),
      reconcileAgent_invalid_seen c _ _ reason (by simp [pendingAgent]) hv2]
    simp [pendingAgent]
  · rw [reconcileAgent_invalid_seen c h agent reason hp hv]
    simp

/-- C4: the two validation methods, run in the order of `reconcileAgent`, report the
reason of the first violated rule in the order image, language, input schema, output
schema; whenever the pass reaches validation and a rule is violated, the phase becomes
"Failed", Status.Message is exactly that first reason and the last store call is the
status write of that object.  Rule by rule: an empty image gives "runtime image is
required" whatever the language and the schemas are; otherwise an unsupported language
gives "unsupported runtime language: " followed by the language; otherwise an empty input
schema gives "input schema is required"; otherwise an empty output schema gives "output
schema is required". -/
theorem first_failure_wins (c : Client) (h : List Event) (agent : Agent)
    (hw : agent.Status.Phase = "" → c.StatusUpdate h (pendingAgent c h agent) = none) :
    validationReason agent = firstFailure agent.Spec ∧
    (∀ reason, firstFailure agent.Spec = some reason →
      (reconcileAgent c h agent).agent.Status.Phase = "Failed" ∧
      (reconcileAgent c h agent).agent.Status.Message = reason ∧
      (reconcileAgent c h agent).trace.getLast?
        = some (Event.StatusUpdate (reconcileAgent c h agent).agent)) ∧
    (agent.Spec.Runtime.Image = "" →
      (reconcileAgent c h agent).agent.Status.Message = "runtime image is required") ∧
    (agent.Spec.Runtime.Image ≠ "" →
      agent.Spec.Runtime.Language ∉ ["typescript", "python", "go"] →
      (reconcileAgent c h agent).agent.Status.Message
        = "unsupported runtime language: " ++ agent.Spec.Runtime.Language) ∧
    (agent.Spec.Runtime.Image ≠ "" →
      agent.Spec.Runtime.Language ∈ ["typescript", "python", "go"] →
      agent.Spec.Schema.Input.Raw = [] →
      (reconcileAgent c h agent).agent.Status.Message = "input schema is required") ∧
    (agent.Spec.Runtime.Image ≠ "" →
      agent.Spec.Runtime.Language ∈ ["typescript", "python", "go"] →
      agent.Spec.Schema.Input.Raw ≠ [] →
      agent.Spec.Schema.Output.Raw = [] →
      (reconcileAgent c h agent).agent.Status.Message = "output schema is required") := by
  refine ⟨validationReason_eq_firstFailure agent, ?_, ?_, ?_, ?_, ?_⟩
  · intro reason hv
    have hr := reconcileAgent_invalid c h agent reason hw hv
    exact ⟨hr.2.2.1, hr.2.2.2.1, hr.2.2.2.2.2⟩
  · intro hi
    exact (reconcileAgent_invalid c h agent _ hw
      (by simp [firstFailure, validationRules, hi])).2.2.2.1
  · intro hi hl
    exact (reconcileAgent_invalid c h agent _ hw
      (by simp [firstFailure, validationRules, hi, hl])).2.2.2.1
  · intro hi hl hin
    exact (reconcileAgent_invalid c h agent _ hw
      (by simp [firstFailure, validationRules, hi, hl, hin])).2.2.2.1
  · intro hi hl hin hout
    exact (reconcileAgent_invalid c h agent _ hw
      (by simp [firstFailure, validationRules, hi, hl, hin, hout])).2.2.2.1

theorem first_failure_wins_witness :
    unseenBrokenAgent.Status.Phase = "" ∧
    unseenBrokenAgent.Spec.Runtime.Image = "" ∧
    unseenBrokenAgent.Spec.Runtime.Language ∉ ["typescript", "python", "go"] ∧
    (reconcileAgent (storeWith unseenBrokenAgent []) [] unseenBrokenAgent).agent.Status.Message
      = "runtime image is required" :=
  ⟨rfl, rfl, by decide,
    (first_failure_wins (storeWith unseenBrokenAgent []) [] unseenBrokenAgent
      (fun _ => rfl)).2.2.1 rfl⟩

/-- C5: `validateAgentRuntime` and `validateAgentSchema` both return no error exactly
when the image is non-empty, the language is one of "typescript", "python", "go" (compared
as strings, so case matters), and the raw input and output schemas are non-empty; two
agents that agree on these four fields get the same answers from both methods, whatever
their other fields are. -/
theorem validation_acceptance (agent : Agent) :
    ((validateAgentRuntime agent = none ∧ validateAgentSchema agent = none) ↔
      (agent.Spec.Runtime.Image ≠ "" ∧
       (agent.Spec.Runtime.Language = "typescript" ∨ agent.Spec.Runtime.Language = "python" ∨
        agent.Spec.Runtime.Language = "go") ∧
       agent.Spec.Schema.Input.Raw ≠ [] ∧
       agent.Spec.Schema.Output.Raw ≠ [])) ∧
    (∀ other : Agent,
      other.Spec.Runtime.Image = agent.Spec.Runtime.Image →
      other.Spec.Runtime.Language = agent.Spec.Runtime.Language →
      other.Spec.Schema.Input.Raw = agent.Spec.Schema.Input.Raw →
      other.Spec.Schema.Output.Raw = agent.Spec.Schema.Output.Raw →
      validateAgentRuntime other = validateAgentRuntime agent ∧
      validateAgentSchema other = validateAgentSchema agent) := by
  constructor
  · have hl := languageSupported_iff agent.Spec.Runtime.Language
    by_cases hs : languageSupported agent.Spec.Runtime.Language supportedLanguages = true
    · have hl2 := hl.1 hs
      by_cases hi : agent.Spec.Runtime.Image = "" <;>
      by_cases hin : agent.Spec.Schema.Input.Raw = [] <;>
      by_cases hout : agent.Spec.Schema.Output.Raw = [] <;>
      simp [validateAgentRuntime, validateAgentSchema, hs, hl2, hi, hin, hout]
    · have hl2 : ¬ (agent.Spec.Runtime.Language = "typescript" ∨
          agent.Spec.Runtime.Language = "python" ∨ agent.Spec.Runtime.Language = "go") :=
        fun h => hs (hl.2 h)
      by_cases hi : agent.Spec.Runtime.Image = "" <;>
      simp [validateAgentRuntime, hs, hl2, hi]
  · intro other h1 h2 h3 h4
    simp [validateAgentRuntime, validateAgentSchema, h1, h2, h3, h4]

theorem validation_acceptance_witness :
    validateAgentRuntime freshAgent = none ∧ validateAgentSchema freshAgent = none ∧
    ¬ (validateAgentRuntime shoutingAgent = none ∧ validateAgentSchema shoutingAgent = none) ∧
    validateAgentRuntime unrelatedAgent = validateAgentRuntime freshAgent :=
  ⟨((validation_acceptance freshAgent).1.2
      ⟨by decide, Or.inr (Or.inr rfl), by decide, by decide⟩).1,
   ((validation_acceptance freshAgent).1.2
      ⟨by decide, Or.inr (Or.inr rfl), by decide, by decide⟩).2,
   fun hacc => absurd ((validation_acceptance shoutingAgent).1.1 hacc).2.1 (by decide),
   ((validation_acceptance freshAgent).2 unrelatedAgent rfl rfl rfl rfl).1⟩

/-- C6: for an agent whose phase is already set and whose spec violates a validation
rule, whatever the store answers to the status write, `reconcileAgent` sets the phase to
"Failed" and the message to the reason of the violation, leaves the instance counter as
it was, issues exactly one store call (the status write of that object), and returns a
nil error with RequeueAfter = 5 minutes (300 seconds in nanoseconds), a result that does
not depend on the status the agent had before; in the normal branch of `Reconcile`
(finalizer present, no deletion marker) the pass returns exactly this. -/
theorem validation_failure_outcome (c : Client) (h : List Event) (agent : Agent)
    (reason : String)
    (hp : agent.Status.Phase ≠ "")
    (hv : firstFailure agent.Spec = some reason) :
    (reconcileAgent c h agent).agent.Status.Phase = "Failed" ∧
    (reconcileAgent c h agent).agent.Status.Message = reason ∧
    (reconcileAgent c h agent).agent.Status.Instances = agent.Status.Instances ∧
    (reconcileAgent c h agent).trace
      = h ++ [Event.StatusUpdate (reconcileAgent c h agent).agent] ∧
    (reconcileAgent c h agent).err = none ∧
    (reconcileAgent c h agent).result = { Requeue := false, RequeueAfter := Minute * 5 } ∧
    Minute * 5 = 300 * 1000000000 ∧
    (∀ req, c.Get req = Except.ok agent → agent.DeletionTimestamp = none →
      finalizerName ∈ agent.Finalizers →
      (Reconcile c req).err = none ∧
      (Reconcile c req).result = { Requeue := false, RequeueAfter := Minute * 5 } ∧
      (Reconcile c req).agent.Status.Phase = "Failed" ∧
      (Reconcile c req).agent.Status.Message = reason) := by
  have hv2 : validationReason agent = some reason := by
    rw [validationReason_eq_firstFailure]
    exact hv
  have hr := reconcileAgent_invalid_seen c h agent reason hp hv2
  refine ⟨by rw [hr], by rw [hr], by rw [hr], by rw [hr], by rw [hr], by rw [hr], by decide, ?_⟩
  intro req hg hd hf
  rw [Reconcile_normal c req agent hg hd hf,
    reconcileAgent_invalid_seen c [Event.Get req] agent reason hp hv2]
  simp

theorem validation_failure_outcome_witness :
    brokenAgent.Status.Phase ≠ "" ∧
    firstFailure brokenAgent.Spec = some "runtime image is required" ∧
    (Reconcile (conflictingStore brokenAgent []) doomedKey).err = none ∧
    (Reconcile (conflictingStore brokenAgent []) doomedKey).result
      = { Requeue := false, RequeueAfter := 300000000000 } :=
  ⟨by decide, by decide,
   ((validation_failure_outcome (conflictingStore brokenAgent []) [] brokenAgent
      "runtime image is required" (by decide) (by decide)).2.2.2.2.2.2.2
        doomedKey rfl rfl (by decide)).1,
   ((validation_failure_outcome (conflictingStore brokenAgent []) [] brokenAgent
      "runtime image is required" (by decide) (by decide)).2.2.2.2.2.2.2
        doomedKey rfl rfl (by decide)).2.1⟩

/-! ## Readiness -/

/-- The outcome of `reconcileAgent` for an agent whose phase is already set and whose
spec passes validation, when the listing and the final status write succeed. -/
theorem reconcileAgent_valid_seen (c : Client) (h : List Event) (agent : Agent)
    (items : List AgentInstance) (hp : agent.Status.Phase ≠ "")
    (hv : validationReason agent = none)
    (hl : c.ListInNamespace h agent.Namespace = Except.ok items)
    (hw : ∀ obj, c.StatusUpdate (h ++ [Event.List agent.Namespace]) obj = none) :
    reconcileAgent c h agent
      = { result := { RequeueAfter := Minute * 10 }, err := none,
          agent := { agent with
                     Status := { agent.Status with
                                 Phase := "Ready", Message := "Agent is ready for deployment",
                                 Instances := countLoop agent.Name items 0,
                                 LastUpdated := c.Now (h ++ [Event.List agent.Namespace]) } },
          trace := h ++ [Event.List agent.Namespace] ++ [Event.StatusUpdate
                    { agent with
                      Status := { agent.Status with
                                  Phase := "Ready", Message := "Agent is ready for deployment",
                                  Instances := countLoop agent.Name items 0,
                                  LastUpdated := c.Now (h ++ [Event.List agent.Namespace]) } }] } := by
  unfold validationReason at hv
  have hr : validateAgentRuntime agent = none := by
    cases hr : validateAgentRuntime agent with
    | none => rfl
    | some e => simp [hr] at hv
  have hs : validateAgentSchema agent = none := by
    cases hs : validateAgentSchema agent with
    | none => rfl
    | some e => simp [hr, hs] at hv
  unfold reconcileAgent
  simp only [hp, if_false, hr, hs, getAgentInstanceCount, hl, listEvent, hw]

/-- The outcome of `reconcileAgent` for a spec that passes validation, when every List
of the namespace returns `items` and every status write succeeds, whatever the phase was. -/
theorem reconcileAgent_ready (c : Client) (h : List Event) (agent : Agent)
    (items : List AgentInstance)
    (hv : firstFailure agent.Spec = none)
    (hl : ∀ h1, c.ListInNamespace h1 agent.Namespace = Except.ok items)
    (hw : ∀ h1 obj, c.StatusUpdate h1 obj = none) :
    (reconcileAgent c h agent).err = none ∧
    (reconcileAgent c h agent).result = { Requeue := false, RequeueAfter := Minute * 10 } ∧
    (reconcileAgent c h agent).trace.getLast?
      = some (Event.StatusUpdate (reconcileAgent c h agent).agent) ∧
    (reconcileAgent c h agent).agent.Status.Phase = "Ready" ∧
    (reconcileAgent c h agent).agent.Status.Message = "Agent is ready for deployment" ∧
    (reconcileAgent c h agent).agent.Status.Instances = countLoop agent.Name items 0 := by
  rw [← validationReason_eq_firstFailure] at hv
  by_cases hp : agent.Status.Phase = ""
  · have hv2 : validationReason (pendingAgent c h agent) = none := by
      rw [validationReason_congr (pendingAgent c h agent) agent rfl]
      exact hv
    rw [reconcileAgent_first c h agent hp (hw _ _),
      reconcileAgent_valid_seen c _ _ items (by simp [pendingAgent]) hv2 (hl _)
        (fun obj => hw _ obj)]
    simp [pendingAgent]
  · rw [reconcileAgent_valid_seen c h agent items hp hv (hl _) (fun obj => hw _ obj)]
    simp

/-- C7 as stated fails: for a valid spec, with the listing and the status writes
succeeding, 2^31 listed instances reference the agent, and the status written with phase
"Ready" has Instances = -2147483648, which is not the dependent count: the `int32`
counter of `getAgentInstanceCount` has wrapped. -/
theorem readiness_overflow_counterexample :
    firstFailure liveAgent.Spec = none ∧
    (∀ h1, (storeWith liveAgent crowd).ListInNamespace h1 liveAgent.Namespace
      = Except.ok crowd) ∧
    matching liveAgent.Name crowd = 2147483648 ∧
    (reconcileAgent (storeWith liveAgent crowd) [] liveAgent).err = none ∧
    (reconcileAgent (storeWith liveAgent crowd) [] liveAgent).agent.Status.Phase = "Ready" ∧
    (reconcileAgent (storeWith liveAgent crowd) [] liveAgent).trace.getLast?
      = some (Event.StatusUpdate
          (reconcileAgent (storeWith liveAgent crowd) [] liveAgent).agent) ∧
    (reconcileAgent (storeWith liveAgent crowd) [] liveAgent).agent.Status.Instances
      = -2147483648 ∧
    (reconcileAgent (storeWith liveAgent crowd) [] liveAgent).agent.Status.Instances
      ≠ (matching liveAgent.Name crowd : Nat) := by
  have hname : liveAgent.Name = doomedAgent.Name := rfl
  have hm : matching liveAgent.Name crowd = 2147483648 := by
    rw [hname]
    exact matching_crowd
  obtain ⟨k1, -, k3, k4, -, k6⟩ :=
    reconcileAgent_ready (storeWith liveAgent crowd) [] liveAgent crowd (by decide)
      (fun _ => rfl) (fun _ _ => rfl)
  have hinst : (reconcileAgent (storeWith liveAgent crowd) [] liveAgent).agent.Status.Instances
      = -2147483648 := by
    rw [k6, countLoop_zero, hm]
    decide
  refine ⟨by decide, fun _ => rfl, hm, k1, k4, k3, hinst, ?_⟩
  rw [hinst, hm]
  decide

/-- C7 (amended): for an agent whose spec passes every validation rule, when the listing
of the namespace and the status writes succeed and fewer than 2^31 of the listed
instances reference the agent, `reconcileAgent` returns a nil error with RequeueAfter =
10 minutes, and the object of its last store call, a status write, has phase "Ready",
message "Agent is ready for deployment" and Instances equal to the dependent count, the
number of listed instances whose Spec.Agent is the agent's name (0 when there are
none). -/
theorem readiness_outcome (c : Client) (h : List Event) (agent : Agent)
    (items : List AgentInstance)
    (hv : firstFailure agent.Spec = none)
    (hl : ∀ h1, c.ListInNamespace h1 agent.Namespace = Except.ok items)
    (hw : ∀ h1 obj, c.StatusUpdate h1 obj = none)
    (hlt : matching agent.Name items < 2147483648) :
    (reconcileAgent c h agent).err = none ∧
    (reconcileAgent c h agent).result = { Requeue := false, RequeueAfter := Minute * 10 } ∧
    Minute * 10 = 600 * 1000000000 ∧
    (reconcileAgent c h agent).trace.getLast?
      = some (Event.StatusUpdate (reconcileAgent c h agent).agent) ∧
    (reconcileAgent c h agent).agent.Status.Phase = "Ready" ∧
    (reconcileAgent c h agent).agent.Status.Message = "Agent is ready for deployment" ∧
    (reconcileAgent c h agent).agent.Status.Instances = (matching agent.Name items : Nat) ∧
    ((∀ inst ∈ items, inst.Spec.Agent ≠ agent.Name) →
      (reconcileAgent c h agent).agent.Status.Instances = 0) := by
  obtain ⟨k1, k2, k3, k4, k5, k6⟩ := reconcileAgent_ready c h agent items hv hl hw
  have hcount : (reconcileAgent c h agent).agent.Status.Instances
      = (matching agent.Name items : Nat) := by
    rw [k6, countLoop_zero]
    exact wrapInt32_of_lt _ (by omega) (by omega)
  refine ⟨k1, k2, by decide, k3, k4, k5, hcount, ?_⟩
  intro hno
  rw [hcount, (matching_eq_zero_iff _ _).2 hno]
  rfl

theorem readiness_outcome_witness :
    firstFailure liveAgent.Spec = none ∧
    (reconcileAgent (storeWith liveAgent [doomedInstance, strangerInstance, secondInstance]) []
      liveAgent).agent.Status.Instances = 2 :=
  ⟨by decide,
   (readiness_outcome (storeWith liveAgent [doomedInstance, strangerInstance, secondInstance]) []
      liveAgent [doomedInstance, strangerInstance, secondInstance] (by decide)
      (fun _ => rfl) (fun _ _ => rfl) (by decide)).2.2.2.2.2.2.1⟩

/-! ## Dependent count -/

theorem matching_append (name : String) (xs ys : List AgentInstance) :
    matching name (xs ++ ys) = matching name xs + matching name ys := by
  simp [matching, List.countP_append]

theorem matching_cons_other (name : String) (inst : AgentInstance) (xs : List AgentInstance)
    (hne : inst.Spec.Agent ≠ name) : matching name (inst :: xs) = matching name xs := by
  simp [matching, List.countP_cons, hne]

theorem matching_map_withRealm (name : String) (f : AgentInstance → String)
    (xs : List AgentInstance) :
    matching name (xs.map (fun inst => withRealm (f inst) inst)) = matching name xs := by
  induction xs with
  | nil => rfl
  | cons x rest ih =>
    simp only [matching, List.map_cons, List.countP_cons] at ih ⊢
    rw [ih]
    simp [withRealm]

/-- C8: when the List call for the agent's namespace returns a list of fewer than 2^31
instances, `getAgentInstanceCount` returns, with a nil error, exactly the number of listed
instances whose Spec.Agent equals the agent's name, a number between 0 and the length of
the list; when the List call fails it returns 0 and that error.  The count over a list is
not changed by inserting anywhere an instance that references another agent, nor by
changing the Realm of any of the instances. -/
theorem dependent_count (c : Client) (h : List Event) (agent : Agent) :
    (∀ items, c.ListInNamespace h agent.Namespace = Except.ok items →
      items.length < 2147483648 →
      getAgentInstanceCount c h agent = (((matching agent.Name items : Nat) : Int), none) ∧
      0 ≤ (getAgentInstanceCount c h agent).1 ∧
      (getAgentInstanceCount c h agent).1 ≤ items.length) ∧
    (∀ e, c.ListInNamespace h agent.Namespace = Except.error e →
      getAgentInstanceCount c h agent = (0, some e)) ∧
    (∀ (front back : List AgentInstance) (inst : AgentInstance),
      inst.Spec.Agent ≠ agent.Name →
      countLoop agent.Name (front ++ inst :: back) 0 = countLoop agent.Name (front ++ back) 0) ∧
    (∀ (items : List AgentInstance) (f : AgentInstance → String),
      countLoop agent.Name (items.map (fun inst => withRealm (f inst) inst)) 0
        = countLoop agent.Name items 0) := by
  refine ⟨?_, ?_, ?_, ?_⟩
  · intro items hl hlen
    have hle := matching_le_length agent.Name items
    have hw : wrapInt32 (matching agent.Name items : Nat) = (matching agent.Name items : Nat) :=
      wrapInt32_of_lt _ (by omega) (by omega)
    rw [getAgentInstanceCount_ok c h agent items hl, hw]
    refine ⟨rfl, ?_, ?_⟩
    · show (0 : Int) ≤ (matching agent.Name items : Nat)
      omega
    · show ((matching agent.Name items : Nat) : Int) ≤ (items.length : Nat)
      omega
  · intro e he
    simp [getAgentInstanceCount, he]
  · intro front back inst hne
    rw [countLoop_zero, countLoop_zero, matching_append, matching_append,
      matching_cons_other _ _ _ hne]
  · intro items f
    rw [countLoop_zero, countLoop_zero, matching_map_withRealm]

theorem dependent_count_witness :
    getAgentInstanceCount (storeWith liveAgent [doomedInstance, strangerInstance, secondInstance])
      [] liveAgent = (2, none) :=
  ((dependent_count (storeWith liveAgent [doomedInstance, strangerInstance, secondInstance])
      [] liveAgent).1 [doomedInstance, strangerInstance, secondInstance] rfl (by decide)).1

/-! ## Fetch errors -/

/-- C9: when Get reports not-found for the request key, the only store call of the pass
is that Get (no List, no Update, no status write) and the pass returns the empty Result
with a nil error; when Get fails with any other error, the only store call is again that
Get and the pass returns the empty Result with that same error. -/
theorem not_found_is_noop (c : Client) (req : NamespacedName) (e : Error)
    (hg : c.Get req = Except.error e) :
    (Reconcile c req).trace = [Event.Get req] ∧
    (Reconcile c req).result = { Requeue := false, RequeueAfter := 0 } ∧
    (IsNotFound e = true → (Reconcile c req).err = none) ∧
    (IsNotFound e = false → (Reconcile c req).err = some e) := by
  by_cases hn : IsNotFound e = true
  · simp [Reconcile, hg, hn]
  · simp [Reconcile, hg, hn]

theorem not_found_is_noop_witness :
    (Reconcile emptyStore doomedKey).trace = [Event.Get doomedKey] ∧
    (Reconcile emptyStore doomedKey).err = none :=
  ⟨(not_found_is_noop emptyStore doomedKey
      { kind := ErrorKind.NotFound, msg := "agents not found" } rfl).1,
   (not_found_is_noop emptyStore doomedKey
      { kind := ErrorKind.NotFound, msg := "agents not found" } rfl).2.2.1 rfl⟩

/-! ## Idempotence of the normal branch -/

/-- C10: with all store calls succeeding and the same instances listed in both runs,
running `reconcileAgent` on the object that a first run produced gives, with a nil error
in both runs, the same phase, message and instance counter and the same Result (the same
requeue interval) as the first run; the spec is the one the first run saw. -/
theorem normal_branch_idempotent (c1 c2 : Client) (h1 h2 : List Event) (agent : Agent)
    (items : List AgentInstance)
    (hl1 : ∀ h, c1.ListInNamespace h agent.Namespace = Except.ok items)
    (hl2 : ∀ h, c2.ListInNamespace h agent.Namespace = Except.ok items)
    (hw1 : ∀ h obj, c1.StatusUpdate h obj = none)
    (hw2 : ∀ h obj, c2.StatusUpdate h obj = none) :
    (reconcileAgent c1 h1 agent).agent.Spec = agent.Spec ∧
    (reconcileAgent c1 h1 agent).err = none ∧
    (reconcileAgent c2 h2 (reconcileAgent c1 h1 agent).agent).err = none ∧
    (reconcileAgent c2 h2 (reconcileAgent c1 h1 agent).agent).agent.Status.Phase
      = (reconcileAgent c1 h1 agent).agent.Status.Phase ∧
    (reconcileAgent c2 h2 (reconcileAgent c1 h1 agent).agent).agent.Status.Message
      = (reconcileAgent c1 h1 agent).agent.Status.Message ∧
    (reconcileAgent c2 h2 (reconcileAgent c1 h1 agent).agent).agent.Status.Instances
      = (reconcileAgent c1 h1 agent).agent.Status.Instances ∧
    (reconcileAgent c2 h2 (reconcileAgent c1 h1 agent).agent).result
      = (reconcileAgent c1 h1 agent).result := by
  -- the first run, whatever the phase was, ends in one of two explicit shapes
  have first : ∃ a : Agent, (reconcileAgent c1 h1 agent).agent = a ∧
      a.Spec = agent.Spec ∧ a.Name = agent.Name ∧ a.Namespace = agent.Namespace ∧
      (reconcileAgent c1 h1 agent).err = none ∧
      ((∃ reason, validationReason agent = some reason ∧ a.Status.Phase = "Failed" ∧
          a.Status.Message = reason ∧
          (reconcileAgent c1 h1 agent).result = { RequeueAfter := Minute * 5 }) ∨
       (validationReason agent = none ∧ a.Status.Phase = "Ready" ∧
          a.Status.Message = "Agent is ready for deployment" ∧
          a.Status.Instances = countLoop agent.Name items 0 ∧
          (reconcileAgent c1 h1 agent).result = { RequeueAfter := Minute * 10 })) := by
    cases hv : validationReason agent with
    | some reason =>
      by_cases hp : agent.Status.Phase = ""
      · have hv2 : validationReason (pendingAgent c1 h1 agent) = some reason := by
          rw [validationReason_congr (pendingAgent c1 h1 agent) agent rfl]
          exact hv
        rw [reconcileAgent_first c1 h1 agent hp (hw1 _ _),
          reconcileAgent_invalid_seen c1 _ _ reason (by simp [pendingAgent]) hv2]
        exact ⟨_, rfl, rfl, rfl, rfl, rfl, Or.inl ⟨reason, rfl, rfl, rfl, rfl⟩⟩
      · rw [reconcileAgent_invalid_seen c1 h1 agent reason hp hv]
        exact ⟨_, rfl, rfl, rfl, rfl, rfl, Or.inl ⟨reason, rfl, rfl, rfl, rfl⟩⟩
    | none =>
      by_cases hp : agent.Status.Phase = ""
      · have hv2 : validationReason (pendingAgent c1 h1 agent) = none := by
          rw [validationReason_congr (pendingAgent c1 h1 agent) agent rfl]
          exact hv
        rw [reconcileAgent_first c1 h1 agent hp (hw1 _ _),
          reconcileAgent_valid_seen c1 _ _ items (by simp [pendingAgent]) hv2 (hl1 _)
            (fun obj => hw1 _ obj)]
        exact ⟨_, rfl, rfl, rfl, rfl, rfl, Or.inr ⟨rfl, rfl, rfl, rfl, rfl⟩⟩
      · rw [reconcileAgent_valid_seen c1 h1 agent items hp hv (hl1 _) (fun obj => hw1 _ obj)]
        exact ⟨_, rfl, rfl, rfl, rfl, rfl, Or.inr ⟨rfl, rfl, rfl, rfl, rfl⟩⟩
  obtain ⟨a, ha, hspec, hname, hns, herr, hshape⟩ := first
  rw [ha]
  refine ⟨hspec, herr, ?_⟩
  rcases hshape with ⟨reason, hv, hph, hmsg, hres⟩ | ⟨hv, hph, hmsg, hinst, hres⟩
  · have hv2 : validationReason a = some reason := by
      rw [validationReason_congr a agent hspec]
      exact hv
    have hp : a.Status.Phase ≠ "" := by
      rw [hph]
      decide
    rw [reconcileAgent_invalid_seen c2 h2 a reason hp hv2, hres]
    simp [hph, hmsg]
  · have hv2 : validationReason a = none := by
      rw [validationReason_congr a agent hspec]
      exact hv
    have hp : a.Status.Phase ≠ "" := by
      rw [hph]
      decide
    have hl : c2.ListInNamespace h2 a.Namespace = Except.ok items := by
      rw [hns]
      exact hl2 h2
    rw [reconcileAgent_valid_seen c2 h2 a items hp hv2 hl (fun obj => hw2 _ obj), hres]
    simp [hph, hmsg, hinst, hname]

theorem normal_branch_idempotent_witness :
    (reconcileAgent (storeWith liveAgent [doomedInstance]) []
      (reconcileAgent (storeWith liveAgent [doomedInstance]) [] liveAgent).agent).agent.Status.Phase
      = (reconcileAgent (storeWith liveAgent [doomedInstance]) [] liveAgent).agent.Status.Phase :=
  (normal_branch_idempotent (storeWith liveAgent [doomedInstance])
    (storeWith liveAgent [doomedInstance]) [] [] liveAgent [doomedInstance]
    (fun _ => rfl) (fun _ => rfl) (fun _ _ => rfl) (fun _ _ => rfl)).2.2.2.1

/-! ## The shapes of a pass -/

theorem reconcileAgent_list_fails_seen (c : Client) (h : List Event) (agent : Agent) (e : Error)
    (hp : agent.Status.Phase ≠ "") (hv : validationReason agent = none)
    (hl : c.ListInNamespace h agent.Namespace = Except.error e) :
    reconcileAgent c h agent
      = { result := {}, err := some e, agent := agent,
          trace := h ++ [Event.List agent.Namespace] } := by
  unfold validationReason at hv
  have hr : validateAgentRuntime agent = none := by
    cases hr : validateAgentRuntime agent with
    | none => rfl
    | some e => simp [hr] at hv
  have hs : validateAgentSchema agent = none := by
    cases hs : validateAgentSchema agent with
    | none => rfl
    | some e => simp [hr, hs] at hv
  unfold reconcileAgent
  simp only [hp, if_false, hr, hs, getAgentInstanceCount, hl, listEvent]

theorem reconcileAgent_ready_seen (c : Client) (h : List Event) (agent : Agent)
    (items : List AgentInstance) (hp : agent.Status.Phase ≠ "")
    (hv : validationReason agent = none)
    (hl : c.ListInNamespace h agent.Namespace = Except.ok items) :
    reconcileAgent c h agent
      = { result :=
            if c.StatusUpdate (h ++ [Event.List agent.Namespace])
                (readyAgent c (h ++ [Event.List agent.Namespace]) agent
                  (countLoop agent.Name items 0)) = none
            then { RequeueAfter := Minute * 10 } else {},
          err := c.StatusUpdate (h ++ [Event.List agent.Namespace])
                  (readyAgent c (h ++ [Event.List agent.Namespace]) agent
                    (countLoop agent.Name items 0)),
          agent := readyAgent c (h ++ [Event.List agent.Namespace]) agent
                    (countLoop agent.Name items 0),
          trace := h ++ [Event.List agent.Namespace] ++
            [Event.StatusUpdate (readyAgent c (h ++ [Event.List agent.Namespace]) agent
              (countLoop agent.Name items 0))] } := by
  unfold validationReason at hv
  have hr : validateAgentRuntime agent = none := by
    cases hr : validateAgentRuntime agent with
    | none => rfl
    | some e => simp [hr] at hv
  have hs : validateAgentSchema agent = none := by
    cases hs : validateAgentSchema agent with
    | none => rfl
    | some e => simp [hr, hs] at hv
  unfold reconcileAgent
  simp only [hp, if_false, hr, hs, getAgentInstanceCount, hl, listEvent]
  cases hw : c.StatusUpdate (h ++ [Event.List agent.Namespace])
      (readyAgent c (h ++ [Event.List agent.Namespace]) agent (countLoop agent.Name items 0)) with
  | none =>
    unfold readyAgent at hw
    simp only [hw, readyAgent, if_true]
  | some e =>
    unfold readyAgent at hw
    simp only [hw, readyAgent]
    simp

theorem reachesValidation_facts (c : Client) (h : List Event) (agent : Agent)
    (h1 : List Event) (agent1 : Agent) (hr : reachesValidation c h agent h1 agent1) :
    agent1.Status.Phase ≠ "" ∧ agent1.Spec = agent.Spec ∧ agent1.Name = agent.Name ∧
    agent1.Namespace = agent.Namespace ∧ agent1.Finalizers = agent.Finalizers ∧
    agent1.DeletionTimestamp = agent.DeletionTimestamp ∧
    agent1.Status.Message = agent.Status.Message ∧
    agent1.Status.Instances = agent.Status.Instances := by
  rcases hr with ⟨hp, rfl, rfl⟩ | ⟨hp, rfl, rfl, hw⟩
  · exact ⟨hp, rfl, rfl, rfl, rfl, rfl, rfl, rfl⟩
  · exact ⟨by simp [pendingAgent], rfl, rfl, rfl, rfl, rfl, rfl, rfl⟩

/-- Case analysis of `reconcileAgent`: every run has one of four shapes. -/
theorem reconcileAgent_cases (c : Client) (h : List Event) (agent : Agent) (P : Outcome → Prop)
    (pendingFails : ∀ e, agent.Status.Phase = "" →
      c.StatusUpdate h (pendingAgent c h agent) = some e →
      P { result := {}, err := some e, agent := pendingAgent c h agent,
          trace := h ++ [Event.StatusUpdate (pendingAgent c h agent)] })
    (invalid : ∀ h1 agent1 reason, reachesValidation c h agent h1 agent1 →
      firstFailure agent.Spec = some reason →
      P { result := { RequeueAfter := Minute * 5 }, err := none,
          agent := failedAgent c h1 agent1 reason,
          trace := h1 ++ [Event.StatusUpdate (failedAgent c h1 agent1 reason)] })
    (listFails : ∀ h1 agent1 e, reachesValidation c h agent h1 agent1 →
      firstFailure agent.Spec = none →
      c.ListInNamespace h1 agent.Namespace = Except.error e →
      P { result := {}, err := some e, agent := agent1,
          trace := h1 ++ [Event.List agent.Namespace] })
    (ready : ∀ h1 agent1 items, reachesValidation c h agent h1 agent1 →
      firstFailure agent.Spec = none →
      c.ListInNamespace h1 agent.Namespace = Except.ok items →
      P { result :=
            if c.StatusUpdate (h1 ++ [Event.List agent.Namespace])
                (readyAgent c (h1 ++ [Event.List agent.Namespace]) agent1
                  (countLoop agent.Name items 0)) = none
            then { RequeueAfter := Minute * 10 } else {},
          err := c.StatusUpdate (h1 ++ [Event.List agent.Namespace])
                  (readyAgent c (h1 ++ [Event.List agent.Namespace]) agent1
                    (countLoop agent.Name items 0)),
          agent := readyAgent c (h1 ++ [Event.List agent.Namespace]) agent1
                    (countLoop agent.Name items 0),
          trace := h1 ++ [Event.List agent.Namespace] ++
            [Event.StatusUpdate (readyAgent c (h1 ++ [Event.List agent.Namespace]) agent1
              (countLoop agent.Name items 0))] }) :
    P (reconcileAgent c h agent) := by
  -- the part of the run from validation on, for an object whose phase is set
  have seen : ∀ h1 agent1, reachesValidation c h agent h1 agent1 →
      P (reconcileAgent c h1 agent1) := by
    intro h1 agent1 hr
    obtain ⟨hp, hspec, hname, hns, -, -, -, -⟩ := reachesValidation_facts c h agent h1 agent1 hr
    have hvr : validationReason agent1 = firstFailure agent.Spec := by
      rw [validationReason_congr agent1 agent hspec, validationReason_eq_firstFailure]
    cases hv : firstFailure agent.Spec with
    | some reason =>
      rw [hv] at hvr
      rw [reconcileAgent_invalid_seen c h1 agent1 reason hp hvr]
      exact invalid h1 agent1 reason hr hv
    | none =>
      rw [hv] at hvr
      cases hl : c.ListInNamespace h1 agent.Namespace with
      | error e =>
        rw [reconcileAgent_list_fails_seen c h1 agent1 e hp hvr (by rw [hns]; exact hl), hns]
        exact listFails h1 agent1 e hr hv hl
      | ok items =>
        rw [reconcileAgent_ready_seen c h1 agent1 items hp hvr (by rw [hns]; exact hl), hns, hname]
        exact ready h1 agent1 items hr hv hl
  by_cases hp : agent.Status.Phase = ""
  · cases hw : c.StatusUpdate h (pendingAgent c h agent) with
    | some e =>
      rw [reconcileAgent_first_fails c h agent e hp hw]
      exact pendingFails e hp hw
    | none =>
      rw [reconcileAgent_first c h agent hp hw]
      exact seen _ _ (Or.inr ⟨hp, rfl, rfl, hw⟩)
  · exact seen h agent (Or.inl ⟨hp, rfl, rfl⟩)

/-- Case analysis of `handleDeletion`: every run has one of three shapes. -/
theorem handleDeletion_cases (c : Client) (h : List Event) (agent : Agent) (fin : String)
    (P : Outcome → Prop)
    (listFails : ∀ e, c.ListInNamespace h agent.Namespace = Except.error e →
      P { result := {}, err := some e, agent := agent,
          trace := h ++ [Event.List agent.Namespace] })
    (blocked : ∀ items, c.ListInNamespace h agent.Namespace = Except.ok items →
      countLoop agent.Name items 0 > 0 →
      P { result := { RequeueAfter := Second * 30 }, err := none,
          agent := terminatingAgent c (h ++ [Event.List agent.Namespace]) agent,
          trace := h ++ [Event.List agent.Namespace] ++
            [Event.StatusUpdate (terminatingAgent c (h ++ [Event.List agent.Namespace]) agent)] })
    (free : ∀ items, c.ListInNamespace h agent.Namespace = Except.ok items →
      ¬ countLoop agent.Name items 0 > 0 →
      P { result := {},
          err := c.Update (h ++ [Event.List agent.Namespace]) (RemoveFinalizer agent fin),
          agent := RemoveFinalizer agent fin,
          trace := h ++ [Event.List agent.Namespace] ++
            [Event.Update (RemoveFinalizer agent fin)] }) :
    P (handleDeletion c h agent fin) := by
  cases hl : c.ListInNamespace h agent.Namespace with
  | error e =>
    have hs : handleDeletion c h agent fin
        = { result := {}, err := some e, agent := agent,
            trace := h ++ [Event.List agent.Namespace] } := by
      simp [handleDeletion, getAgentInstanceCount, hl, listEvent]
    rw [hs]
    exact listFails e hl
  | ok items =>
    by_cases hpos : countLoop agent.Name items 0 > 0
    · have hs : handleDeletion c h agent fin
          = { result := { RequeueAfter := Second * 30 }, err := none,
              agent := terminatingAgent c (h ++ [Event.List agent.Namespace]) agent,
              trace := h ++ [Event.List agent.Namespace] ++
                [Event.StatusUpdate
                  (terminatingAgent c (h ++ [Event.List agent.Namespace]) agent)] } := by
        simp [handleDeletion, getAgentInstanceCount, hl, listEvent, hpos, terminatingAgent]
      rw [hs]
      exact blocked items hl hpos
    · have hs : handleDeletion c h agent fin
          = { result := {},
              err := c.Update (h ++ [Event.List agent.Namespace]) (RemoveFinalizer agent fin),
              agent := RemoveFinalizer agent fin,
              trace := h ++ [Event.List agent.Namespace] ++
                [Event.Update (RemoveFinalizer agent fin)] } := by
        simp only [handleDeletion, getAgentInstanceCount, hl, listEvent, hpos, if_false]
        cases hu : c.Update (h ++ [Event.List agent.Namespace]) (RemoveFinalizer agent fin) <;>
          simp
      rw [hs]
      exact free items hl hpos

theorem Reconcile_attach (c : Client) (req : NamespacedName) (agent : Agent)
    (hg : c.Get req = Except.ok agent) (hd : agent.DeletionTimestamp = none)
    (hf : finalizerName ∉ agent.Finalizers) :
    Reconcile c req
      = { result := {}, err := c.Update [Event.Get req] (AddFinalizer agent finalizerName),
          agent := AddFinalizer agent finalizerName,
          trace := [Event.Get req] ++ [Event.Update (AddFinalizer agent finalizerName)] } := by
  simp [Reconcile, hg, hd, ContainsFinalizer, hf]

/-- Which branch of `Reconcile` a fetched agent takes. -/
theorem Reconcile_branches (c : Client) (req : NamespacedName) (agent : Agent)
    (hg : c.Get req = Except.ok agent) (P : Outcome → Prop)
    (attach : agent.DeletionTimestamp = none → finalizerName ∉ agent.Finalizers →
      P { result := {}, err := c.Update [Event.Get req] (AddFinalizer agent finalizerName),
          agent := AddFinalizer agent finalizerName,
          trace := [Event.Get req] ++ [Event.Update (AddFinalizer agent finalizerName)] })
    (deletion : agent.DeletionTimestamp ≠ none →
      P (handleDeletion c [Event.Get req] agent finalizerName))
    (normal : agent.DeletionTimestamp = none → finalizerName ∈ agent.Finalizers →
      P (reconcileAgent c [Event.Get req] agent)) :
    P (Reconcile c req) := by
  by_cases hd : agent.DeletionTimestamp = none
  · by_cases hf : finalizerName ∈ agent.Finalizers
    · rw [Reconcile_normal c req agent hg hd hf]
      exact normal hd hf
    · rw [Reconcile_attach c req agent hg hd hf]
      exact attach hd hf
  · rw [Reconcile_deleting c req agent hg hd]
    exact deletion hd

/-! ## Store-write failures -/

theorem Reconcile_surfaced (c : Client) (req : NamespacedName) (agent : Agent)
    (hg : c.Get req = Except.ok agent) : surfaced c (Reconcile c req) := by
  apply Reconcile_branches c req agent hg
  · intro hd hf
    simp [surfaced, failedWrites]
    intros
    assumption
  · intro hd
    apply handleDeletion_cases
    · intro e hl
      simp [surfaced, failedWrites]
    · intro items hl hpos
      simp [surfaced, failedWrites, terminatingAgent]
    · intro items hl hpos
      simp [surfaced, failedWrites]
      intros
      assumption
  · intro hd hf
    apply reconcileAgent_cases
    · intro e hp hw
      simp_all [surfaced, failedWrites, pendingAgent]
    · intro h1 agent1 reason hr hv
      rcases hr with ⟨hp, rfl, rfl⟩ | ⟨hp, rfl, rfl, hw⟩
      · simp [surfaced, failedWrites, failedAgent]
      · simp [surfaced, failedWrites, failedAgent, hw]
    · intro h1 agent1 e hr hv hl
      rcases hr with ⟨hp, rfl, rfl⟩ | ⟨hp, rfl, rfl, hw⟩
      · simp [surfaced, failedWrites]
      · simp [surfaced, failedWrites, hw]
    · intro h1 agent1 items hr hv hl
      rcases hr with ⟨hp, rfl, rfl⟩ | ⟨hp, rfl, rfl, hw⟩
      · simp [surfaced, failedWrites, readyAgent]
        intros
        assumption
      · simp [surfaced, failedWrites, readyAgent, hw]
        intros
        assumption

/-- C11 as stated fails: the store rejects the status write of the validation-failure
branch and, in a second pass, the status write of the blocked-deletion branch; both
passes return a nil error. -/
theorem store_write_failure_counterexample :
    brokenAgent.DeletionTimestamp = none ∧ finalizerName ∈ brokenAgent.Finalizers ∧
    failedWrites (conflictingStore brokenAgent []) []
        (Reconcile (conflictingStore brokenAgent []) doomedKey).trace
      = [(Event.StatusUpdate (Reconcile (conflictingStore brokenAgent []) doomedKey).agent,
          { kind := ErrorKind.Conflict, msg := "object has been modified" })] ∧
    (Reconcile (conflictingStore brokenAgent []) doomedKey).agent.Status.Phase = "Failed" ∧
    (Reconcile (conflictingStore brokenAgent []) doomedKey).err = none ∧
    failedWrites (conflictingStore doomedAgent [doomedInstance]) []
        (Reconcile (conflictingStore doomedAgent [doomedInstance]) doomedKey).trace
      = [(Event.StatusUpdate
            (Reconcile (conflictingStore doomedAgent [doomedInstance]) doomedKey).agent,
          { kind := ErrorKind.Conflict, msg := "object has been modified" })] ∧
    (Reconcile (conflictingStore doomedAgent [doomedInstance]) doomedKey).agent.Status.Phase
      = "Terminating" ∧
    (Reconcile (conflictingStore doomedAgent [doomedInstance]) doomedKey).err = none := by
  decide

/-- C11 (amended): in a pass on an existing Agent, when the store rejects a metadata
write (finalizer attach, deletion without dependents) or a status write with phase
"Pending" (first observation) or "Ready" (readiness), `Reconcile` returns that error;
when it rejects the status write of the validation-failure branch (phase "Failed") or of
the deletion-with-dependents branch (phase "Terminating"), `Reconcile` returns a nil
error with RequeueAfter = 5 minutes, respectively 30 seconds; a pass issues no status
write with any other phase. -/
theorem store_write_failures (c : Client) (req : NamespacedName) (agent : Agent)
    (hg : c.Get req = Except.ok agent) :
    (∀ obj e, (Event.Update obj, e) ∈ failedWrites c [] (Reconcile c req).trace →
      (Reconcile c req).err = some e) ∧
    (∀ obj e, (Event.StatusUpdate obj, e) ∈ failedWrites c [] (Reconcile c req).trace →
      obj.Status.Phase = "Pending" ∨ obj.Status.Phase = "Ready" →
      (Reconcile c req).err = some e) ∧
    (∀ obj e, (Event.StatusUpdate obj, e) ∈ failedWrites c [] (Reconcile c req).trace →
      obj.Status.Phase = "Failed" →
      (Reconcile c req).err = none ∧ (Reconcile c req).result = { RequeueAfter := Minute * 5 }) ∧
    (∀ obj e, (Event.StatusUpdate obj, e) ∈ failedWrites c [] (Reconcile c req).trace →
      obj.Status.Phase = "Terminating" →
      (Reconcile c req).err = none ∧
      (Reconcile c req).result = { RequeueAfter := Second * 30 }) ∧
    (∀ obj e, (Event.StatusUpdate obj, e) ∈ failedWrites c [] (Reconcile c req).trace →
      obj.Status.Phase = "Pending" ∨ obj.Status.Phase = "Ready" ∨
      obj.Status.Phase = "Failed" ∨ obj.Status.Phase = "Terminating") :=
  Reconcile_surfaced c req agent hg

theorem store_write_failures_witness :
    (Reconcile (conflictingStore liveAgent []) doomedKey).err
      = some { kind := ErrorKind.Conflict, msg := "object has been modified" } :=
  (store_write_failures (conflictingStore liveAgent []) doomedKey liveAgent rfl).2.1
    (pendingAgent (conflictingStore liveAgent []) [Event.Get doomedKey] liveAgent)
    { kind := ErrorKind.Conflict, msg := "object has been modified" }
    (by decide) (Or.inl rfl)

/-! ## Writes per pass -/

theorem Reconcile_writesOnce (c : Client) (req : NamespacedName) (agent : Agent)
    (hg : c.Get req = Except.ok agent)
    (hl : ∀ h e, c.ListInNamespace h agent.Namespace ≠ Except.error e)
    (hw : ∀ h obj, c.StatusUpdate h obj = none) :
    writesOnce agent (Reconcile c req) := by
  apply Reconcile_branches c req agent hg
  · intro hd hf
    simp [writesOnce, writes, isMetadataWrite, isStatusWrite, hf]
  · intro hd
    apply handleDeletion_cases
    · intro e he
      exact absurd he (hl _ e)
    · intro items _ hpos
      simp [writesOnce, writes, isMetadataWrite, isStatusWrite, hd]
    · intro items _ hpos
      simp [writesOnce, writes, isMetadataWrite, isStatusWrite, hd]
  · intro hd hf
    apply reconcileAgent_cases
    · intro e hp hfail
      rw [hw] at hfail
      exact absurd hfail (by simp)
    · intro h1 agent1 reason hr hv
      rcases hr with ⟨hp, rfl, rfl⟩ | ⟨hp, rfl, rfl, -⟩
      · simp [writesOnce, writes, isMetadataWrite, isStatusWrite, hd, hf, hp]
      · simp [writesOnce, writes, isMetadataWrite, isStatusWrite, hd, hf, hp, pendingAgent,
          failedAgent]
        exact ⟨_, _, ⟨rfl, rfl⟩, rfl, Or.inl rfl⟩
    · intro h1 agent1 e hr hv he
      exact absurd he (hl _ e)
    · intro h1 agent1 items hr hv _
      rcases hr with ⟨hp, rfl, rfl⟩ | ⟨hp, rfl, rfl, -⟩
      · simp [writesOnce, writes, isMetadataWrite, isStatusWrite, hd, hf, hp]
      · simp [writesOnce, writes, isMetadataWrite, isStatusWrite, hd, hf, hp, pendingAgent,
          readyAgent]
        exact ⟨_, _, ⟨rfl, rfl⟩, rfl, Or.inr rfl⟩

/-- C12 as stated fails: for an agent in the normal branch whose phase is empty, with a
store that accepts every call, the pass issues two status writes, first with phase
"Pending" and then with phase "Ready". -/
theorem one_write_per_pass_counterexample :
    liveAgent.Status.Phase = "" ∧
    failedWrites (storeWith liveAgent []) [] (Reconcile (storeWith liveAgent []) doomedKey).trace
      = [] ∧
    (Reconcile (storeWith liveAgent []) doomedKey).err = none ∧
    (Reconcile (storeWith liveAgent []) doomedKey).trace
      = [Event.Get doomedKey,
         Event.StatusUpdate (pendingAgent (storeWith liveAgent []) [Event.Get doomedKey] liveAgent),
         Event.List "prod",
         Event.StatusUpdate (Reconcile (storeWith liveAgent []) doomedKey).agent] ∧
    (Reconcile (storeWith liveAgent []) doomedKey).agent.Status.Phase = "Ready" ∧
    (Reconcile (storeWith liveAgent []) doomedKey).trace.countP isStatusWrite = 2 := by
  decide

/-- C12 (amended): in a pass that fetches an existing Agent and in which every List and
every write succeeds, the pass ends without error and its writes are as follows.  In the
normal branch (no deletion marker, finalizer present) with Status.Phase empty the pass
issues exactly two writes, both status writes, the first with phase "Pending" and the
second with phase "Failed" or "Ready".  In every other case the pass issues exactly one
write, which is a metadata write or a status write.  No pass issues both a metadata write
and a status write. -/
theorem one_write_per_pass (c : Client) (req : NamespacedName) (agent : Agent)
    (hg : c.Get req = Except.ok agent)
    (hl : ∀ h e, c.ListInNamespace h agent.Namespace ≠ Except.error e)
    (hw : ∀ h obj, c.StatusUpdate h obj = none)
    (hu : ∀ h obj, c.Update h obj = none) :
    ((agent.DeletionTimestamp = none ∧ finalizerName ∈ agent.Finalizers ∧
        agent.Status.Phase = "") →
      ∃ a b, writes (Reconcile c req).trace = [Event.StatusUpdate a, Event.StatusUpdate b] ∧
        a.Status.Phase = "Pending" ∧
        (b.Status.Phase = "Failed" ∨ b.Status.Phase = "Ready")) ∧
    (¬ (agent.DeletionTimestamp = none ∧ finalizerName ∈ agent.Finalizers ∧
        agent.Status.Phase = "") →
      (∃ obj, writes (Reconcile c req).trace = [Event.Update obj]) ∨
      (∃ obj, writes (Reconcile c req).trace = [Event.StatusUpdate obj])) ∧
    (Reconcile c req).trace.countP isMetadataWrite + (Reconcile c req).trace.countP isStatusWrite
      = (if agent.DeletionTimestamp = none ∧ finalizerName ∈ agent.Finalizers ∧
            agent.Status.Phase = "" then 2 else 1) ∧
    ((Reconcile c req).trace.countP isMetadataWrite = 0 ∨
      (Reconcile c req).trace.countP isStatusWrite = 0) ∧
    (Reconcile c req).err = none := by
  have hone := Reconcile_writesOnce c req agent hg hl hw
  refine ⟨hone.1, hone.2.1, hone.2.2.1, hone.2.2.2, ?_⟩
  -- with every call succeeding the pass ends without error
  apply Reconcile_branches c req agent hg (fun out => out.err = none)
  · intro _ _
    exact hu _ _
  · intro _
    apply handleDeletion_cases c _ agent _ (fun out => out.err = none)
    · intro e he
      exact absurd he (hl _ e)
    · intro _ _ _
      rfl
    · intro _ _ _
      exact hu _ _
  · intro _ _
    apply reconcileAgent_cases c _ agent (fun out => out.err = none)
    · intro e _ hfail
      rw [hw] at hfail
      exact absurd hfail (by simp)
    · intro _ _ _ _ _
      rfl
    · intro _ _ e _ _ he
      exact absurd he (hl _ e)
    · intro _ _ _ _ _ _
      exact hw _ _

theorem one_write_per_pass_witness :
    ((Reconcile (storeWith brokenAgent []) doomedKey).trace.countP isMetadataWrite
      + (Reconcile (storeWith brokenAgent []) doomedKey).trace.countP isStatusWrite = 1) ∧
    (∃ a b, writes (Reconcile (storeWith liveAgent []) doomedKey).trace
        = [Event.StatusUpdate a, Event.StatusUpdate b] ∧
      a.Status.Phase = "Pending" ∧ (b.Status.Phase = "Failed" ∨ b.Status.Phase = "Ready")) :=
  ⟨(one_write_per_pass (storeWith brokenAgent []) doomedKey brokenAgent rfl
      (fun _ _ hne => by cases hne) (fun _ _ => rfl) (fun _ _ => rfl)).2.2.1,
   (one_write_per_pass (storeWith liveAgent []) doomedKey liveAgent rfl
      (fun _ _ hne => by cases hne) (fun _ _ => rfl) (fun _ _ => rfl)).1
        ⟨rfl, by decide, rfl⟩⟩

/-! ## The message of a blocked deletion -/

/-- C13 as stated fails: a blocked pass that finds 1 dependent and a blocked pass that
finds 3 dependents write the same message with phase "Terminating"; the message is a
fixed text and carries no count. -/
theorem blocked_message_counterexample :
    getAgentInstanceCount (storeWith doomedAgent [doomedInstance]) [Event.Get doomedKey]
      doomedAgent = (1, none) ∧
    getAgentInstanceCount
      (storeWith doomedAgent [doomedInstance, secondInstance, strangerInstance, thirdInstance])
      [Event.Get doomedKey] doomedAgent = (3, none) ∧
    (Reconcile (storeWith doomedAgent [doomedInstance]) doomedKey).agent.Status.Phase
      = "Terminating" ∧
    (Reconcile
      (storeWith doomedAgent [doomedInstance, secondInstance, strangerInstance, thirdInstance])
      doomedKey).agent.Status.Phase = "Terminating" ∧
    (Reconcile (storeWith doomedAgent [doomedInstance]) doomedKey).agent.Status.Message
      = (Reconcile
          (storeWith doomedAgent [doomedInstance, secondInstance, strangerInstance, thirdInstance])
          doomedKey).agent.Status.Message ∧
    (Reconcile
      (storeWith doomedAgent [doomedInstance, secondInstance, strangerInstance, thirdInstance])
      doomedKey).agent.Status.Message = "Waiting for AgentInstances to be deleted" := by
  decide

/-- C13 (amended): for an Agent with the deletion marker set for which
`getAgentInstanceCount` finds n > 0 dependents, the status written with phase
"Terminating" has the fixed, non-empty message "Waiting for AgentInstances to be
deleted", the same text for every n; the pass issues, after the Get and the List, that
one status write. -/
theorem blocked_deletion_message (c : Client) (req : NamespacedName) (agent : Agent) (n : Int)
    (hg : c.Get req = Except.ok agent)
    (hd : agent.DeletionTimestamp ≠ none)
    (hc : getAgentInstanceCount c [Event.Get req] agent = (n, none))
    (hn : n > 0) :
    (Reconcile c req).trace
      = [Event.Get req, Event.List agent.Namespace, Event.StatusUpdate (Reconcile c req).agent] ∧
    (Reconcile c req).agent.Status.Phase = "Terminating" ∧
    (Reconcile c req).agent.Status.Message = "Waiting for AgentInstances to be deleted" ∧
    (Reconcile c req).agent.Status.Message ≠ "" := by
  rw [Reconcile_deleting c req agent hg hd]
  simp only [handleDeletion, hc, hn, if_true]
  simp [listEvent]

theorem blocked_deletion_message_witness :
    (Reconcile
      (storeWith doomedAgent [doomedInstance, secondInstance, strangerInstance, thirdInstance])
      doomedKey).agent.Status.Message = "Waiting for AgentInstances to be deleted" :=
  (blocked_deletion_message
    (storeWith doomedAgent [doomedInstance, secondInstance, strangerInstance, thirdInstance])
    doomedKey doomedAgent 3 rfl (by decide) (by decide) (by decide)).2.2.1

/-! ## Status well-formedness -/

theorem unsupported_ne_empty (language : String) :
    "unsupported runtime language: " ++ language ≠ "" := by
  intro h
  have hlen := congrArg String.length h
  rw [String.length_append] at hlen
  have h30 : "unsupported runtime language: ".length = 30 := by decide
  have h0 : "".length = 0 := by decide
  omega

theorem firstFailure_ne_empty (spec : AgentSpec) (reason : String)
    (hv : firstFailure spec = some reason) : reason ≠ "" := by
  unfold firstFailure validationRules at hv
  by_cases hi : spec.Runtime.Image = ""
  · simp [hi] at hv
    rw [← hv]
    decide
  · by_cases hlang : spec.Runtime.Language ∈ ["typescript", "python", "go"]
    · by_cases hin : spec.Schema.Input.Raw = []
      · simp [hi, hlang, hin] at hv
        rw [← hv]
        decide
      · by_cases hout : spec.Schema.Output.Raw = []
        · simp [hi, hlang, hin, hout] at hv
          rw [← hv]
          decide
        · simp [hi, hlang, hin, hout] at hv
    · simp [hi, hlang] at hv
      rw [← hv]
      exact unsupported_ne_empty _

theorem Reconcile_statusInvariant (c : Client) (req : NamespacedName) (agent : Agent)
    (hg : c.Get req = Except.ok agent) : statusInvariant agent (Reconcile c req) := by
  apply Reconcile_branches c req agent hg
  · intro hd hf
    simp [statusInvariant, AddFinalizer, hf]
  · intro hd
    apply handleDeletion_cases
    · intro e hl
      simp [statusInvariant]
    · intro items hl hpos
      simp [statusInvariant, wellFormed, terminatingAgent]
    · intro items hl hpos
      simp [statusInvariant, RemoveFinalizer]
  · intro hd hf
    apply reconcileAgent_cases
    · intro e hp hw
      simp [statusInvariant, wellFormed, pendingAgent]
    · intro h1 agent1 reason hr hv
      have hne := firstFailure_ne_empty _ _ hv
      rcases hr with ⟨hp, rfl, rfl⟩ | ⟨hp, rfl, rfl, hw⟩
      · simp [statusInvariant, wellFormed, failedAgent, hne, hv]
      · simp [statusInvariant, wellFormed, failedAgent, pendingAgent, hne, hv]
    · intro h1 agent1 e hr hv hl
      rcases hr with ⟨hp, rfl, rfl⟩ | ⟨hp, rfl, rfl, hw⟩
      · simp [statusInvariant]
      · simp [statusInvariant, wellFormed, pendingAgent]
    · intro h1 agent1 items hr hv hl
      rcases hr with ⟨hp, rfl, rfl⟩ | ⟨hp, rfl, rfl, hw⟩
      · simp [statusInvariant, wellFormed, readyAgent, hv]
      · simp [statusInvariant, wellFormed, readyAgent, pendingAgent, hv]

/-- C14 as stated fails: the store holds an agent whose status has phase "Failed" and an
empty message and that lacks the finalizer; the pass attaches the finalizer, writes no
status and leaves that status on the object.  Likewise a pass that finds no dependents
for an agent awaiting deletion leaves a stored status with phase "Terminating" and an
empty message as it is. -/
theorem status_left_untouched_counterexample :
    staleAgent.DeletionTimestamp = none ∧ finalizerName ∉ staleAgent.Finalizers ∧
    (Reconcile (storeWith staleAgent []) doomedKey).err = none ∧
    (Reconcile (storeWith staleAgent []) doomedKey).trace
      = [Event.Get doomedKey, Event.Update (Reconcile (storeWith staleAgent []) doomedKey).agent] ∧
    (Reconcile (storeWith staleAgent []) doomedKey).agent.Status.Phase = "Failed" ∧
    (Reconcile (storeWith staleAgent []) doomedKey).agent.Status.Message = "" ∧
    ¬ wellFormed (Reconcile (storeWith staleAgent []) doomedKey).agent.Status ∧
    staleDoomedAgent.DeletionTimestamp ≠ none ∧
    (Reconcile (storeWith staleDoomedAgent [strangerInstance]) doomedKey).err = none ∧
    (Reconcile (storeWith staleDoomedAgent [strangerInstance]) doomedKey).agent.Status.Phase
      = "Terminating" ∧
    (Reconcile (storeWith staleDoomedAgent [strangerInstance]) doomedKey).agent.Status.Message
      = "" ∧
    ¬ wellFormed
      (Reconcile (storeWith staleDoomedAgent [strangerInstance]) doomedKey).agent.Status := by
  decide

/-- C14 (amended): in a pass on an existing Agent, every status that `Reconcile` writes
is well-formed (phase "Failed" or "Terminating" comes with a non-empty message), and the
status left on the object at the end is either the fetched status, untouched, or one the
pass wrote; so an object fetched with a well-formed status, the empty status of a new
object included, ends the pass with a well-formed status.  A status with phase "Ready" is
written only when the spec passes every validation rule, so the phase turns "Ready" only
then, and no pass writes both a "Failed" and a "Ready" status. -/
theorem status_well_formed (c : Client) (req : NamespacedName) (agent : Agent)
    (hg : c.Get req = Except.ok agent) :
    (∀ obj, Event.StatusUpdate obj ∈ (Reconcile c req).trace → wellFormed obj.Status) ∧
    ((Reconcile c req).agent.Status = agent.Status ∨
      Event.StatusUpdate (Reconcile c req).agent ∈ (Reconcile c req).trace) ∧
    (wellFormed agent.Status → wellFormed (Reconcile c req).agent.Status) ∧
    wellFormed ({} : AgentStatus) ∧
    (∀ obj, Event.StatusUpdate obj ∈ (Reconcile c req).trace → obj.Status.Phase = "Ready" →
      firstFailure agent.Spec = none) ∧
    ((Reconcile c req).agent.Status.Phase = "Ready" → agent.Status.Phase ≠ "Ready" →
      firstFailure agent.Spec = none) ∧
    (∀ a b, Event.StatusUpdate a ∈ (Reconcile c req).trace →
      Event.StatusUpdate b ∈ (Reconcile c req).trace →
      a.Status.Phase = "Failed" → b.Status.Phase ≠ "Ready") := by
  obtain ⟨h1, h2, h3, h4⟩ := Reconcile_statusInvariant c req agent hg
  refine ⟨h1, h2, ?_, ?_, h3, ?_, ?_⟩
  · intro hwf
    rcases h2 with heq | hmem
    · rw [heq]
      exact hwf
    · exact h1 _ hmem
  · intro hph
    rcases hph with hph | hph <;> exact absurd hph (by decide)
  · intro hready hnot
    rcases h2 with heq | hmem
    · rw [heq] at hready
      exact absurd hready hnot
    · exact h3 _ hmem hready
  · intro a b ha hb hfa hrb
    exact h4 a ha hfa (h3 b hb hrb)

theorem status_well_formed_witness :
    wellFormed (Reconcile (storeWith unseenBrokenAgent []) doomedKey).agent.Status ∧
    (Reconcile (storeWith unseenBrokenAgent []) doomedKey).agent.Status.Phase = "Failed" ∧
    (Reconcile (storeWith unseenBrokenAgent []) doomedKey).agent.Status.Message
      = "runtime image is required" :=
  ⟨(status_well_formed (storeWith unseenBrokenAgent []) doomedKey unseenBrokenAgent rfl).2.2.1
      (fun hph => by rcases hph with hph | hph <;> exact absurd hph (by decide)),
   by decide, by decide⟩

/-! ## The Pending write -/

theorem reconcileAgent_pending_first (c : Client) (h : List Event) (agent : Agent)
    (hp : agent.Status.Phase = "") :
    ∃ rest, (reconcileAgent c h agent).trace
      = h ++ Event.StatusUpdate (pendingAgent c h agent) :: rest := by
  apply reconcileAgent_cases c h agent
    (fun out => ∃ rest, out.trace = h ++ Event.StatusUpdate (pendingAgent c h agent) :: rest)
  · intro e _ _
    exact ⟨[], rfl⟩
  · intro h1 agent1 reason hr _
    rcases hr with ⟨hq, -, -⟩ | ⟨-, rfl, rfl, -⟩
    · exact absurd hp hq
    · exact ⟨[Event.StatusUpdate
        (failedAgent c (h ++ [Event.StatusUpdate (pendingAgent c h agent)])
          (pendingAgent c h agent) reason)], by simp⟩
  · intro h1 agent1 e hr _ _
    rcases hr with ⟨hq, -, -⟩ | ⟨-, rfl, rfl, -⟩
    · exact absurd hp hq
    · exact ⟨[Event.List agent.Namespace], by simp⟩
  · intro h1 agent1 items hr _ _
    rcases hr with ⟨hq, -, -⟩ | ⟨-, rfl, rfl, -⟩
    · exact absurd hp hq
    · exact ⟨[Event.List agent.Namespace, Event.StatusUpdate
        (readyAgent c (h ++ [Event.StatusUpdate (pendingAgent c h agent)] ++
            [Event.List agent.Namespace])
          (pendingAgent c h agent) (countLoop agent.Name items 0))], by simp⟩

theorem Reconcile_no_pending_write (c : Client) (req : NamespacedName) (agent : Agent)
    (hg : c.Get req = Except.ok agent) (hp : agent.Status.Phase ≠ "") :
    ∀ obj, Event.StatusUpdate obj ∈ (Reconcile c req).trace → obj.Status.Phase ≠ "Pending" := by
  apply Reconcile_branches c req agent hg
    (fun out => ∀ obj, Event.StatusUpdate obj ∈ out.trace → obj.Status.Phase ≠ "Pending")
  · intro _ _
    simp
  · intro _
    apply handleDeletion_cases c _ agent _
      (fun out => ∀ obj, Event.StatusUpdate obj ∈ out.trace → obj.Status.Phase ≠ "Pending")
    · intro _ _
      simp
    · intro _ _ _
      simp [terminatingAgent]
    · intro _ _ _
      simp
  · intro _ _
    apply reconcileAgent_cases c _ agent
      (fun out => ∀ obj, Event.StatusUpdate obj ∈ out.trace → obj.Status.Phase ≠ "Pending")
    · intro e hq _
      exact absurd hq hp
    · intro h1 agent1 reason hr _
      rcases hr with ⟨-, rfl, rfl⟩ | ⟨hq, -, -, -⟩
      · simp [failedAgent]
      · exact absurd hq hp
    · intro h1 agent1 e hr _ _
      rcases hr with ⟨-, rfl, rfl⟩ | ⟨hq, -, -, -⟩
      · simp
      · exact absurd hq hp
    · intro h1 agent1 items hr _ _
      rcases hr with ⟨-, rfl, rfl⟩ | ⟨hq, -, -, -⟩
      · simp [readyAgent]
      · exact absurd hq hp

/-- C15: for an Agent in the normal branch (no deletion marker, finalizer present) whose
Status.Phase is empty, whatever its spec is, the store call that follows the Get is a
status write of the fetched object with only the phase, set to "Pending", and the
timestamp changed (the message is the fetched one, no validation reason is in it); it is
the first write of the pass and precedes every List call.  If the store rejects it, the
pass returns that error with the empty Result (no requeue interval) and issues no further
store call.  For an Agent whose Status.Phase is non-empty, in whatever branch, the pass
issues no status write with phase "Pending". -/
theorem pending_first (c : Client) (req : NamespacedName) (agent : Agent)
    (hg : c.Get req = Except.ok agent) :
    (agent.DeletionTimestamp = none → finalizerName ∈ agent.Finalizers →
      agent.Status.Phase = "" →
      (∃ rest, (Reconcile c req).trace
        = Event.Get req :: Event.StatusUpdate (pendingAgent c [Event.Get req] agent) :: rest) ∧
      (Reconcile c req).trace.find? (fun ev => isMetadataWrite ev || isStatusWrite ev)
        = some (Event.StatusUpdate (pendingAgent c [Event.Get req] agent)) ∧
      (pendingAgent c [Event.Get req] agent)
        = { agent with
            Status := { agent.Status with
                        Phase := "Pending", LastUpdated := c.Now [Event.Get req] } } ∧
      (∀ e, c.StatusUpdate [Event.Get req] (pendingAgent c [Event.Get req] agent) = some e →
        (Reconcile c req).err = some e ∧
        (Reconcile c req).result = { Requeue := false, RequeueAfter := 0 } ∧
        (Reconcile c req).trace
          = [Event.Get req, Event.StatusUpdate (pendingAgent c [Event.Get req] agent)])) ∧
    (agent.Status.Phase ≠ "" →
      ∀ obj, Event.StatusUpdate obj ∈ (Reconcile c req).trace →
        obj.Status.Phase ≠ "Pending") := by
  refine ⟨?_, Reconcile_no_pending_write c req agent hg⟩
  intro hd hf hp
  rw [Reconcile_normal c req agent hg hd hf]
  obtain ⟨rest, hrest⟩ := reconcileAgent_pending_first c [Event.Get req] agent hp
  refine ⟨⟨rest, by rw [hrest]; rfl⟩, ?_, rfl, ?_⟩
  · rw [hrest]
    simp [List.find?, isMetadataWrite, isStatusWrite]
  · intro e he
    rw [reconcileAgent_first_fails c [Event.Get req] agent e hp he]
    exact ⟨rfl, rfl, rfl⟩

theorem pending_first_witness :
    (Reconcile (conflictingStore liveAgent [doomedInstance]) doomedKey).trace
      = [Event.Get doomedKey,
         Event.StatusUpdate
          (pendingAgent (conflictingStore liveAgent [doomedInstance]) [Event.Get doomedKey]
            liveAgent)] :=
  ((pending_first (conflictingStore liveAgent [doomedInstance]) doomedKey liveAgent rfl).1
    rfl (by decide) rfl).2.2.2
    { kind := ErrorKind.Conflict, msg := "object has been modified" } rfl |>.2.2

end Loopstacks
